import Mathlib

/-!
Verification of the PrivateKV envelope-encryption coordinator and its
adapters (Kampouse/key-manager).

The TypeScript source is shallowly embedded: each `async` method becomes a
pure Lean function threading explicit adapter state and returning an
`Except` result together with a trace of the adapter calls it performed.
JavaScript `Map`s are association lists, `btoa`/`atob` are an executable
base64 codec, and the pluggable crypto / TEE / storage adapters of
`PrivateKVConfig` are records of state-passing functions, exactly as the
coordinator in `PrivateKV.ts` depends only on their interfaces.
-/

set_option autoImplicit false

/-! ## JavaScript string primitives -/

/-- Model of JavaScript `String.prototype.startsWith`. -/
def strStartsWith (pat s : String) : Bool :=
  pat.data.isPrefixOf s.data

/-- Split a character list on a separator character, JavaScript
`String.prototype.split` semantics: splitting the empty string yields
one empty segment, and adjacent separators yield empty segments. -/
def splitChar (sep : Char) : List Char → List (List Char)
  | [] => [[]]
  | c :: rest =>
    let r := splitChar sep rest
    if c == sep then
      [] :: r
    else
      match r with
      | h :: t => (c :: h) :: t
      | [] => [[c]]

/-- Model of JavaScript `value.split(sep)` for a single-character separator. -/
def jsSplit (sep : Char) (s : String) : List String :=
  (splitChar sep s.data).map List.asString

/-- Lexicographic comparison of character lists by code point, modelling the
default JavaScript `Array.prototype.sort` comparison on strings. -/
def charsLe : List Char → List Char → Bool
  | [], _ => true
  | _ :: _, [] => false
  | a :: as, b :: bs =>
    if a.toNat < b.toNat then true
    else if b.toNat < a.toNat then false
    else charsLe as bs

/-- String comparison used by the in-memory storage adapter's `list`. -/
def strLe (a b : String) : Bool :=
  charsLe a.data b.data

/-- Insert into a sorted list (helper for `sortStrings`). -/
def insertLe (x : String) : List String → List String
  | [] => [x]
  | y :: ys => if strLe x y then x :: y :: ys else y :: insertLe x ys

/-- Model of JavaScript `keys.sort()` in `MemoryStorageAdapter.list`. -/
def sortStrings : List String → List String
  | [] => []
  | x :: xs => insertLe x (sortStrings xs)

/-! ## Base64 (`btoa` / `atob` and `Buffer` base64) -/

/-- The base64 alphabet. -/
def b64Chars : List Char :=
  "ABCDEFGHIJKLMNOPQRSTUVWXYZabcdefghijklmnopqrstuvwxyz0123456789+/".data

/-- Character for a sextet value. -/
def b64CharOf (n : Nat) : Char :=
  b64Chars.getD n 'A'

/-- Sextet value of a base64 character, `none` for characters outside the
alphabet. -/
def b64IndexOf (c : Char) : Option Nat :=
  b64Chars.indexOf? c

/-- Encode a byte list as base64 characters, with `=` padding. -/
def b64EncodeChunks : List Nat → List Char
  | [] => []
  | [a] => [b64CharOf (a / 4), b64CharOf (a % 4 * 16), '=', '=']
  | [a, b] => [b64CharOf (a / 4), b64CharOf (a % 4 * 16 + b / 16), b64CharOf (b % 16 * 4), '=']
  | a :: b :: c :: rest =>
    b64CharOf (a / 4) :: b64CharOf (a % 4 * 16 + b / 16) ::
      b64CharOf (b % 16 * 4 + c / 64) :: b64CharOf (c % 64) :: b64EncodeChunks rest

/-- Encode a byte list as a base64 string. -/
def b64EncodeBytes (bs : List Nat) : String :=
  List.asString (b64EncodeChunks bs)

/-- Decode base64 characters back to bytes; `none` on malformed input. -/
def b64DecodeChunks : List Char → Option (List Nat)
  | [] => some []
  | c0 :: c1 :: c2 :: c3 :: rest =>
    match b64IndexOf c0, b64IndexOf c1 with
    | some s0, some s1 =>
      if c2 = '=' then
        if c3 = '=' ∧ rest = [] then some [s0 * 4 + s1 / 16] else none
      else
        match b64IndexOf c2 with
        | some s2 =>
          if c3 = '=' then
            if rest = [] then some [s0 * 4 + s1 / 16, s1 % 16 * 16 + s2 / 4] else none
          else
            match b64IndexOf c3, b64DecodeChunks rest with
            | some s3, some tail =>
              some ((s0 * 4 + s1 / 16) :: (s1 % 16 * 16 + s2 / 4) :: (s2 % 4 * 64 + s3) :: tail)
            | _, _ => none
        | none => none
    | _, _ => none
  | _ => none

/-- Decode a base64 string to bytes. -/
def b64DecodeBytes (s : String) : Option (List Nat) :=
  b64DecodeChunks s.data

/-- Model of JavaScript `btoa`: encodes the code points of a Latin-1 string;
`none` models the `InvalidCharacterError` thrown on code points above 255. -/
def jsBtoa (s : String) : Option String :=
  if s.data.all (fun c => c.toNat < 256) then
    some (b64EncodeBytes (s.data.map Char.toNat))
  else
    none

/-- Model of JavaScript `atob`: decodes base64 to a Latin-1 string, `none` on
malformed input. -/
def jsAtob (s : String) : Option String :=
  (b64DecodeBytes s).map (fun bs => List.asString (bs.map Char.ofNat))

/-! ## Decimal printing of naturals

JavaScript template literals print numbers in decimal; this is the explicit
base-10 printer used for `mock-key-${++this.keyIdCounter}`. -/

/-- Decimal digits, least significant first, with a fuel argument so the
definition is structural (any `fuel ≥ n` gives the digits of `n`). -/
def natDigitsRevF : Nat → Nat → List Nat
  | 0, _ => []
  | fuel + 1, n => if n = 0 then [] else n % 10 :: natDigitsRevF fuel (n / 10)

/-- Decimal digits of `n`, least significant first. -/
def natDigitsRev (n : Nat) : List Nat :=
  natDigitsRevF n n

/-- Character for a decimal digit. -/
def decDigitChar (d : Nat) : Char :=
  Char.ofNat (48 + d)

/-- Decimal string representation of a natural number (the output of a
JavaScript `${n}` interpolation). -/
def natToString (n : Nat) : String :=
  if n = 0 then "0" else List.asString (((natDigitsRev n).reverse).map decDigitChar)

/-- Left inverse of `natToString`, used to prove it injective. -/
def parseDecimal (s : String) : Nat :=
  s.data.foldl (fun a c => a * 10 + (c.toNat - 48)) 0

/-! ## UTF-8 encoding

`TextEncoder.encode` / Node `Buffer` UTF-8. The `%` reductions on the lead
bytes are no-ops for valid Unicode scalar values (Lean `Char`s); they only
make the byte bounds syntactically evident. -/

/-- UTF-8 bytes of one Unicode scalar value. -/
def utf8EncodeChar (c : Char) : List Nat :=
  let n := c.toNat
  if n < 128 then [n]
  else if n < 2048 then [192 + n / 64 % 32, 128 + n % 64]
  else if n < 65536 then [224 + n / 4096 % 16, 128 + n / 64 % 64, 128 + n % 64]
  else [240 + n / 262144 % 16, 128 + n / 4096 % 64, 128 + n / 64 % 64, 128 + n % 64]

/-- UTF-8 bytes of a string. -/
def utf8Bytes (s : String) : List Nat :=
  s.data.flatMap utf8EncodeChar

/-- Inverse of `utf8EncodeChar` on byte lists (model of `TextDecoder`); used
only to give the Node decrypt model a total definition. -/
def utf8DecodeBytes : List Nat → Option (List Char)
  | [] => some []
  | b0 :: rest =>
    if b0 < 128 then
      (utf8DecodeBytes rest).map (fun cs => Char.ofNat b0 :: cs)
    else if 192 ≤ b0 ∧ b0 < 224 then
      match rest with
      | b1 :: rest' =>
        (utf8DecodeBytes rest').map (fun cs => Char.ofNat ((b0 - 192) * 64 + (b1 - 128)) :: cs)
      | _ => none
    else if 224 ≤ b0 ∧ b0 < 240 then
      match rest with
      | b1 :: b2 :: rest' =>
        (utf8DecodeBytes rest').map
          (fun cs => Char.ofNat ((b0 - 224) * 4096 + (b1 - 128) * 64 + (b2 - 128)) :: cs)
      | _ => none
    else
      match rest with
      | b1 :: b2 :: b3 :: rest' =>
        (utf8DecodeBytes rest').map
          (fun cs =>
            Char.ofNat ((b0 - 240) * 262144 + (b1 - 128) * 4096 + (b2 - 128) * 64 + (b3 - 128)) :: cs)
      | _ => none

/-! ## Regular-expression subset

`PrivateKV.list` strips its namespace with
`e.replace(new RegExp('^' + ns + '/' + accountId + '/'), '')`.  The pattern
is built by raw string interpolation, so characters of the configured
namespace/account are interpreted as JavaScript regex syntax.  The engine
below covers the anchored fragment relevant here: literal characters,
escapes, `.`, and the `*`/`+`/`?` quantifiers with greedy backtracking
(constructs such as groups or classes, which would make the source throw or
behave differently, are treated as literals and are excluded from every
hypothesis that relies on this model). -/

/-- A single regex atom. -/
inductive RAtom where
  | lit (c : Char)
  | dot
deriving DecidableEq, Repr

/-- A regex piece: an atom with its quantifier. -/
inductive RPiece where
  | once (a : RAtom)
  | star (a : RAtom)
  | opt (a : RAtom)
deriving DecidableEq, Repr

/-- Parse a pattern string into regex pieces.  An atom is an escaped
character, `.`, or a literal character; a following `*`, `+` or `?`
quantifies it (`x+` desugars to `x x*`). -/
def parsePat : List Char → List RPiece
  | [] => []
  | [c] => [.once (if c = '.' then RAtom.dot else RAtom.lit c)]
  | c₀ :: c₁ :: rest =>
    if c₀ = '\\' then
      match rest with
      | [] => [.once (.lit c₁)]
      | q :: rest' =>
        if q = '*' then .star (.lit c₁) :: parsePat rest'
        else if q = '+' then .once (.lit c₁) :: .star (.lit c₁) :: parsePat rest'
        else if q = '?' then .opt (.lit c₁) :: parsePat rest'
        else .once (.lit c₁) :: parsePat (q :: rest')
    else
      let a := if c₀ = '.' then RAtom.dot else RAtom.lit c₀
      if c₁ = '*' then .star a :: parsePat rest
      else if c₁ = '+' then .once a :: .star a :: parsePat rest
      else if c₁ = '?' then .opt a :: parsePat rest
      else .once a :: parsePat (c₁ :: rest)

/-- Does an atom match one character. -/
def matchAtom : RAtom → Char → Bool
  | .lit c, d => c == d
  | .dot, _ => true

/-- Greedy backtracking matcher, anchored at the start of the input, with a
fuel argument so the definition is structural; every step consumes a piece
or an input character, so `pieces + input + 1` fuel always suffices.
Returns the rest of the input after a match. -/
def rmatchF : Nat → List RPiece → List Char → Option (List Char)
  | 0, _, _ => none
  | _ + 1, [], s => some s
  | fuel + 1, .once a :: ps, s =>
    match s with
    | [] => none
    | c :: s' => if matchAtom a c then rmatchF fuel ps s' else none
  | fuel + 1, .opt a :: ps, s =>
    match s with
    | [] => rmatchF fuel ps []
    | c :: s' =>
      if matchAtom a c then
        match rmatchF fuel ps s' with
        | some r => some r
        | none => rmatchF fuel ps (c :: s')
      else rmatchF fuel ps (c :: s')
  | fuel + 1, .star a :: ps, s =>
    match s with
    | [] => rmatchF fuel ps []
    | c :: s' =>
      if matchAtom a c then
        match rmatchF fuel (.star a :: ps) s' with
        | some r => some r
        | none => rmatchF fuel ps (c :: s')
      else rmatchF fuel ps (c :: s')

/-- Run the matcher with sufficient fuel. -/
def rmatch (ps : List RPiece) (s : List Char) : Option (List Char) :=
  rmatchF (ps.length + s.length + 1) ps s

/-- Model of `e.replace(new RegExp('^' + pat), '')`: drop the (unique,
anchored) match of `pat` from the front of `e`, or return `e` unchanged if
there is no match. -/
def jsReplaceAnchored (pat : String) (e : String) : String :=
  match rmatch (parsePat pat.data) e.data with
  | some rest => List.asString rest
  | none => e

/-! ## Data model -/

/-- The persisted record (`EncryptedEntry` in `types.ts`).  `algorithm` and
`v` carry the literal types `"AES-256-GCM"` and `1` in the source; here they
are a `String` and a `Nat` field that the coordinator always sets to those
literals. -/
structure EncryptedEntry where
  wrapped_key : String
  ciphertext : String
  key_id : String
  algorithm : String
  v : Nat
deriving DecidableEq, Repr

/-- Result of a storage write (`{ txHash?: string }`). -/
structure WriteResult where
  txHash : Option String
deriving DecidableEq, Repr

/-- Result of `TEEAdapter.wrapKey`. -/
structure WrapKeyResult where
  wrapped_key_b64 : String
  key_id : String
deriving DecidableEq, Repr

/-- Result of `TEEAdapter.unwrapKey`. -/
structure UnwrapKeyResult where
  plaintext_key_b64 : String
  key_id : String
deriving DecidableEq, Repr

/-- Errors thrown by the embedded operations. -/
inductive KVError where
  /-- The mock TEE's `throw new Error('Key not found')`. -/
  | teeKeyNotFound
  /-- `btoa` on a code point above 255 (`InvalidCharacterError`). -/
  | invalidCharacter
  /-- Failure inside a crypto adapter. -/
  | cryptoFailure
  /-- Failure inside a storage adapter. -/
  | storageFailure
deriving DecidableEq, Repr

/-- One observable adapter call made by the coordinator, with the arguments
it passed across that boundary. -/
inductive Event where
  | cryptoGenerateKey
  | cryptoEncrypt (plaintext : String)
  | cryptoExportKey
  | cryptoImportKey (keyB64 : String)
  | cryptoDecrypt (ciphertextB64 : String)
  | storageSet (key : String) (entry : EncryptedEntry)
  | storageGet (key : String)
  | storageDelete (key : String)
  | storageList (pfx : String)
  | teeWrapKey (groupId : String) (plaintextKeyB64 : String)
  | teeUnwrapKey (groupId : String) (wrappedKeyB64 : String)
  | teeGetKeyId (groupId : String)
deriving DecidableEq, Repr

/-- Is the event a storage-adapter call. -/
def Event.isStorage : Event → Bool
  | .storageSet _ _ | .storageGet _ | .storageDelete _ | .storageList _ => true
  | _ => false

/-- Is the event a TEE-adapter call. -/
def Event.isTee : Event → Bool
  | .teeWrapKey _ _ | .teeUnwrapKey _ _ | .teeGetKeyId _ => true
  | _ => false

/-- Is the event a crypto-adapter call. -/
def Event.isCrypto : Event → Bool
  | .cryptoGenerateKey | .cryptoEncrypt _ | .cryptoExportKey
  | .cryptoImportKey _ | .cryptoDecrypt _ => true
  | _ => false

/-! ## Adapter interfaces

The source coordinator depends on `StorageAdapter`, `TEEAdapter` and
`CryptoAdapter` interfaces only.  Each becomes a record of state-passing
functions over its own state type (`K` the crypto key-handle type, `R` the
crypto adapter's environment/randomness state, `T` the TEE adapter's state,
`U` the storage backend's state). -/

/-- The `CryptoAdapter` interface of `types.ts`. -/
structure CryptoAdapterM (K R : Type) where
  generateKey : R → Except KVError K × R
  exportKey : K → R → Except KVError String × R
  importKey : String → R → Except KVError K × R
  encrypt : String → K → R → Except KVError String × R
  decrypt : String → K → R → Except KVError String × R

/-- The `TEEAdapter` interface of `types.ts`; `getKeyId` is optional there. -/
structure TEEAdapterM (T : Type) where
  wrapKey : String → String → T → Except KVError WrapKeyResult × T
  unwrapKey : String → String → T → Except KVError UnwrapKeyResult × T
  getKeyId : Option (String → T → Except KVError String × T)

/-- The `StorageAdapter` interface of `types.ts`. -/
structure StorageAdapterM (U : Type) where
  set : String → EncryptedEntry → U → Except KVError WriteResult × U
  get : String → U → Except KVError (Option EncryptedEntry) × U
  delete : String → U → Except KVError WriteResult × U
  list : String → U → Except KVError (List String) × U

/-- The three adapters a `PrivateKV` instance is configured with. -/
structure Adapters (K R T U : Type) where
  crypto : CryptoAdapterM K R
  tee : TEEAdapterM T
  storage : StorageAdapterM U

/-! ## Concrete test adapters (`adapters/memory.ts`) -/

/-- State of `MemoryStorageAdapter`: its `Map<string, EncryptedEntry>` as an
association list (later bindings shadow earlier ones, as `Map.set`
replaces). -/
abbrev MemoryStore := List (String × EncryptedEntry)

/-- `MemoryStorageAdapter`: an in-memory store; no operation ever throws. -/
def MemoryStorageAdapter : StorageAdapterM MemoryStore where
  set := fun key entry u =>
    (.ok ⟨none⟩, (key, entry) :: u.filter (fun p => p.1 != key))
  get := fun key u => (.ok (List.lookup key u), u)
  delete := fun key u => (.ok ⟨none⟩, u.filter (fun p => p.1 != key))
  list := fun pfx u =>
    (.ok (sortStrings ((u.map Prod.fst).filter (fun k => strStartsWith pfx k))), u)

/-- One record of `MockTEEAdapter.keys` (`{ wrapped, plaintext }`). -/
structure MockKeyRec where
  wrapped : String
  plaintext : String
deriving DecidableEq, Repr

/-- State of `MockTEEAdapter`: the `keys` map (wrapped form to record) and the
`keyIdCounter`. -/
structure MockTEEState where
  keys : List (String × MockKeyRec)
  keyIdCounter : Nat
deriving DecidableEq, Repr

/-- `generateKeyId`: `` `mock-key-${++this.keyIdCounter}` `` — returns the id
for the already-incremented counter. -/
def mkMockKeyId (counter : Nat) : String :=
  "mock-key-" ++ natToString counter

/-- `extractKeyId`: decode the wrapped string and take the fourth `:` field,
`'unknown'` when absent or empty (`parts[3] || 'unknown'`). -/
def extractKeyId (wrapped : String) : String :=
  let parts := jsSplit ':' ((jsAtob wrapped).getD "")
  let p := parts.getD 3 ""
  if p = "" then "unknown" else p

/-- `MockTEEAdapter.wrapKey`. -/
def mockWrapKey (groupId plaintextKeyB64 : String) (t : MockTEEState) :
    Except KVError WrapKeyResult × MockTEEState :=
  let keyId := mkMockKeyId (t.keyIdCounter + 1)
  match jsBtoa ("wrapped:" ++ plaintextKeyB64 ++ ":" ++ groupId ++ ":" ++ keyId) with
  | none => (.error .invalidCharacter, t)
  | some wrapped =>
    (.ok ⟨wrapped, keyId⟩,
      ⟨(wrapped, ⟨wrapped, plaintextKeyB64⟩) :: t.keys.filter (fun p => p.1 != wrapped),
        t.keyIdCounter + 1⟩)

/-- `MockTEEAdapter.unwrapKey`: pure lookup of the wrapped string in `keys`;
the `groupId` argument is not consulted. -/
def mockUnwrapKey (groupId wrappedKeyB64 : String) (t : MockTEEState) :
    Except KVError UnwrapKeyResult × MockTEEState :=
  match List.lookup wrappedKeyB64 t.keys with
  | none => (.error .teeKeyNotFound, t)
  | some rec' => (.ok ⟨rec'.plaintext, extractKeyId wrappedKeyB64⟩, t)

/-- `MockTEEAdapter.getKeyId`: a fresh id from the incremented counter on
every call. -/
def mockGetKeyId (groupId : String) (t : MockTEEState) :
    Except KVError String × MockTEEState :=
  (.ok (mkMockKeyId (t.keyIdCounter + 1)), ⟨t.keys, t.keyIdCounter + 1⟩)

/-- The assembled `MockTEEAdapter`. -/
def MockTEEAdapter : TEEAdapterM MockTEEState where
  wrapKey := mockWrapKey
  unwrapKey := mockUnwrapKey
  getKeyId := some mockGetKeyId

/-! ## The envelope coordinator (`PrivateKV.ts`) -/

/-- Resolved configuration of a `PrivateKV` instance (after the constructor's
defaulting of `namespace` to `'privatekv'` and `groupSuffix` to
`'private'`). -/
structure PrivateKVConfig where
  accountId : String
  nsp : String
  groupSuffix : String
deriving DecidableEq, Repr

/-- `getGroupId`. -/
def getGroupId (cfg : PrivateKVConfig) : String :=
  cfg.accountId ++ "/" ++ cfg.groupSuffix

/-- `getFullKey`. -/
def getFullKey (cfg : PrivateKVConfig) (key : String) : String :=
  cfg.nsp ++ "/" ++ cfg.accountId ++ "/" ++ key

/-- Full adapter-facing state of a coordinator run: the three adapter states
plus the coordinator's own `keyIdCache`. -/
structure SysState (R T U : Type) where
  cr : R
  te : T
  st : U
  cache : List (String × String)

/-- Result of one coordinator operation: the returned value (or thrown
error), the post-state, and the adapter calls made, in order. -/
structure StepOut (α : Type) (R T U : Type) where
  res : Except KVError α
  state : SysState R T U
  trace : List Event

/-- `PrivateKV.set`: generate an ephemeral key, encrypt locally, export the
key, wrap it with the TEE, assemble the entry, store it. -/
def PrivateKV.set {K R T U : Type} (cfg : PrivateKVConfig) (A : Adapters K R T U)
    (key plaintext : String) (s : SysState R T U) : StepOut WriteResult R T U :=
  let groupId := getGroupId cfg
  let fullKey := getFullKey cfg key
  match A.crypto.generateKey s.cr with
  | (.error e, r1) => ⟨.error e, ⟨r1, s.te, s.st, s.cache⟩, [.cryptoGenerateKey]⟩
  | (.ok ephemeralKey, r1) =>
    match A.crypto.encrypt plaintext ephemeralKey r1 with
    | (.error e, r2) =>
      ⟨.error e, ⟨r2, s.te, s.st, s.cache⟩, [.cryptoGenerateKey, .cryptoEncrypt plaintext]⟩
    | (.ok ciphertext, r2) =>
      match A.crypto.exportKey ephemeralKey r2 with
      | (.error e, r3) =>
        ⟨.error e, ⟨r3, s.te, s.st, s.cache⟩,
          [.cryptoGenerateKey, .cryptoEncrypt plaintext, .cryptoExportKey]⟩
      | (.ok ephemeralKeyB64, r3) =>
        match A.tee.wrapKey groupId ephemeralKeyB64 s.te with
        | (.error e, t1) =>
          ⟨.error e, ⟨r3, t1, s.st, s.cache⟩,
            [.cryptoGenerateKey, .cryptoEncrypt plaintext, .cryptoExportKey,
              .teeWrapKey groupId ephemeralKeyB64]⟩
        | (.ok wrappedKey, t1) =>
          let entry : EncryptedEntry :=
            ⟨wrappedKey.wrapped_key_b64, ciphertext, wrappedKey.key_id, "AES-256-GCM", 1⟩
          match A.storage.set fullKey entry s.st with
          | (res, u1) =>
            ⟨res, ⟨r3, t1, u1, s.cache⟩,
              [.cryptoGenerateKey, .cryptoEncrypt plaintext, .cryptoExportKey,
                .teeWrapKey groupId ephemeralKeyB64, .storageSet fullKey entry]⟩

/-- `PrivateKV.get`: fetch the entry, return `null` if absent, otherwise
unwrap the key with the TEE and decrypt locally. -/
def PrivateKV.get {K R T U : Type} (cfg : PrivateKVConfig) (A : Adapters K R T U)
    (key : String) (s : SysState R T U) : StepOut (Option String) R T U :=
  let fullKey := getFullKey cfg key
  let groupId := getGroupId cfg
  match A.storage.get fullKey s.st with
  | (.error e, u1) => ⟨.error e, ⟨s.cr, s.te, u1, s.cache⟩, [.storageGet fullKey]⟩
  | (.ok none, u1) => ⟨.ok none, ⟨s.cr, s.te, u1, s.cache⟩, [.storageGet fullKey]⟩
  | (.ok (some entry), u1) =>
    match A.tee.unwrapKey groupId entry.wrapped_key s.te with
    | (.error e, t1) =>
      ⟨.error e, ⟨s.cr, t1, u1, s.cache⟩,
        [.storageGet fullKey, .teeUnwrapKey groupId entry.wrapped_key]⟩
    | (.ok unwrapped, t1) =>
      match A.crypto.importKey unwrapped.plaintext_key_b64 s.cr with
      | (.error e, r1) =>
        ⟨.error e, ⟨r1, t1, u1, s.cache⟩,
          [.storageGet fullKey, .teeUnwrapKey groupId entry.wrapped_key,
            .cryptoImportKey unwrapped.plaintext_key_b64]⟩
      | (.ok ephemeralKey, r1) =>
        match A.crypto.decrypt entry.ciphertext ephemeralKey r1 with
        | (.error e, r2) =>
          ⟨.error e, ⟨r2, t1, u1, s.cache⟩,
            [.storageGet fullKey, .teeUnwrapKey groupId entry.wrapped_key,
              .cryptoImportKey unwrapped.plaintext_key_b64, .cryptoDecrypt entry.ciphertext]⟩
        | (.ok plaintext, r2) =>
          ⟨.ok (some plaintext), ⟨r2, t1, u1, s.cache⟩,
            [.storageGet fullKey, .teeUnwrapKey groupId entry.wrapped_key,
              .cryptoImportKey unwrapped.plaintext_key_b64, .cryptoDecrypt entry.ciphertext]⟩

/-- `PrivateKV.delete`: delegates to the storage adapter. -/
def PrivateKV.delete {K R T U : Type} (cfg : PrivateKVConfig) (A : Adapters K R T U)
    (key : String) (s : SysState R T U) : StepOut WriteResult R T U :=
  let fullKey := getFullKey cfg key
  match A.storage.delete fullKey s.st with
  | (res, u1) => ⟨res, ⟨s.cr, s.te, u1, s.cache⟩, [.storageDelete fullKey]⟩

/-- `PrivateKV.list`: list from storage under the full prefix, then strip
`namespace/accountId/` from each returned key with an anchored regex
replace. -/
def PrivateKV.list {K R T U : Type} (cfg : PrivateKVConfig) (A : Adapters K R T U)
    (pfx : String) (s : SysState R T U) : StepOut (List String) R T U :=
  let fullPfx := getFullKey cfg pfx
  match A.storage.list fullPfx s.st with
  | (.error e, u1) => ⟨.error e, ⟨s.cr, s.te, u1, s.cache⟩, [.storageList fullPfx]⟩
  | (.ok entries, u1) =>
    ⟨.ok (entries.map (jsReplaceAnchored (cfg.nsp ++ "/" ++ cfg.accountId ++ "/"))),
      ⟨s.cr, s.te, u1, s.cache⟩, [.storageList fullPfx]⟩

/-- `PrivateKV.getKeyId`: cached lookup; otherwise the adapter's optional
`getKeyId`, or a throwaway `generateKey`/`exportKey`/`wrapKey` as a
fallback. -/
def PrivateKV.getKeyId {K R T U : Type} (cfg : PrivateKVConfig) (A : Adapters K R T U)
    (s : SysState R T U) : StepOut String R T U :=
  let groupId := getGroupId cfg
  match List.lookup groupId s.cache with
  | some keyId => ⟨.ok keyId, s, []⟩
  | none =>
    match A.tee.getKeyId with
    | some gk =>
      match gk groupId s.te with
      | (.error e, t1) => ⟨.error e, ⟨s.cr, t1, s.st, s.cache⟩, [.teeGetKeyId groupId]⟩
      | (.ok keyId, t1) =>
        ⟨.ok keyId, ⟨s.cr, t1, s.st, (groupId, keyId) :: s.cache⟩, [.teeGetKeyId groupId]⟩
    | none =>
      match A.crypto.generateKey s.cr with
      | (.error e, r1) => ⟨.error e, ⟨r1, s.te, s.st, s.cache⟩, [.cryptoGenerateKey]⟩
      | (.ok ephemeralKey, r1) =>
        match A.crypto.exportKey ephemeralKey r1 with
        | (.error e, r2) =>
          ⟨.error e, ⟨r2, s.te, s.st, s.cache⟩, [.cryptoGenerateKey, .cryptoExportKey]⟩
        | (.ok keyB64, r2) =>
          match A.tee.wrapKey groupId keyB64 s.te with
          | (.error e, t1) =>
            ⟨.error e, ⟨r2, t1, s.st, s.cache⟩,
              [.cryptoGenerateKey, .cryptoExportKey, .teeWrapKey groupId keyB64]⟩
          | (.ok wrapped, t1) =>
            ⟨.ok wrapped.key_id,
              ⟨r2, t1, s.st, (groupId, wrapped.key_id) :: s.cache⟩,
              [.cryptoGenerateKey, .cryptoExportKey, .teeWrapKey groupId keyB64]⟩

/-! ## Crypto adapter models

The coordinator's crypto adapter is pluggable (`config.crypto`); the claims
are settled against (a) an arbitrary adapter satisfying the documented
round-trip contract of §4.1, and (b) an executable model of
`NodeCryptoAdapter` whose AES-256-GCM core (provided in the source by the
external `node:crypto` library, not by this repository) is modelled as a
length-preserving keystream cipher with a 12-byte random nonce and a
16-byte tag, matching the wire format `nonce || ciphertext || tag`. -/

/-- The documented contract of `CryptoAdapter`: a key handle imported from
the exported form of a key decrypts anything encrypted under that key. -/
def CryptoRoundtrip {K R : Type} (C : CryptoAdapterM K R) : Prop :=
  ∀ (k : K) (e : String) (r₁ r₁' : R), C.exportKey k r₁ = (.ok e, r₁') →
    ∀ r₂ : R, ∃ (k' : K) (r₂' : R), C.importKey e r₂ = (.ok k', r₂') ∧
      ∀ (p c : String) (r₃ r₃' : R), C.encrypt p k r₃ = (.ok c, r₃') →
        ∀ r₄ : R, (C.decrypt c k' r₄).1 = .ok p

/-- Check tag of the simple model cipher: a two-character suffix derived
from the key. -/
def modelTag (k : String) : List Char :=
  ['#', Char.ofNat (65 + (k.data.foldl (fun a c => a + c.toNat) 0) % 26)]

/-- A small executable crypto adapter used to instantiate the round-trip
contract on concrete inputs: key handles are strings, export/import are the
identity, and the cipher appends a key-derived tag. -/
def modelCrypto : CryptoAdapterM String Nat where
  generateKey := fun r => (.ok ("modelkey-" ++ natToString r), r + 1)
  exportKey := fun k r => (.ok k, r)
  importKey := fun s r => (.ok s, r)
  encrypt := fun p k r => (.ok (List.asString (p.data ++ modelTag k)), r + 1)
  decrypt := fun c k r =>
    let d := c.data
    if d.drop (d.length - 2) = modelTag k ∧ 2 ≤ d.length then
      (.ok (List.asString (d.take (d.length - 2))), r)
    else
      (.error .cryptoFailure, r)

/-- Deterministic pseudo-random bytes standing in for
`crypto.randomBytes` / `getRandomValues`. -/
def randBytes (n seed : Nat) : List Nat :=
  (List.range n).map (fun i => (seed * 97 + i * 31 + 11) % 256)

/-- Keystream of the modelled AES-256-GCM (CTR-mode) core. -/
def gcmKeystream (key iv : List Nat) (n : Nat) : List Nat :=
  (List.range n).map (fun i => (key.sum * 131 + iv.sum * 31 + i * 7 + 3) % 256)

/-- Modelled from the spec: the AES-256-GCM block-cipher core is supplied by
the runtime (`node:crypto` / WebCrypto), not by this repository; GCM
encrypts in counter mode, so it is modelled as a byte-wise keystream XOR,
which preserves length exactly as GCM does. -/
def gcmEncryptBytes (key iv pt : List Nat) : List Nat :=
  pt.zipWith (fun b k => (b ^^^ k) % 256) (gcmKeystream key iv pt.length)

/-- Modelled 16-byte GCM authentication tag. -/
def gcmTag (key iv ct : List Nat) : List Nat :=
  (List.range 16).map (fun i => (key.sum * 7 + iv.sum * 5 + ct.sum * 3 + i) % 256)

/-- `NodeCryptoAdapter.encrypt`: fresh 12-byte IV, GCM-encrypt the UTF-8
plaintext, append the 16-byte tag, base64-encode `iv || ciphertext ||
tag`. -/
def nodeEncrypt (plaintext : String) (key : List Nat) (r : Nat) :
    Except KVError String × Nat :=
  let iv := randBytes 12 r
  let pt := utf8Bytes plaintext
  let ct := gcmEncryptBytes key iv pt
  (.ok (b64EncodeBytes (iv ++ ct ++ gcmTag key iv ct)), r + 1)

/-- `NodeCryptoAdapter.decrypt`: split `iv || ciphertext || tag`, check the
tag, decrypt. -/
def nodeDecrypt (ciphertextB64 : String) (key : List Nat) (r : Nat) :
    Except KVError String × Nat :=
  match b64DecodeBytes ciphertextB64 with
  | none => (.error .cryptoFailure, r)
  | some combined =>
    let iv := combined.take 12
    let tag := combined.drop (combined.length - 16)
    let ct := (combined.drop 12).take (combined.length - 12 - 16)
    if tag = gcmTag key iv ct then
      match utf8DecodeBytes (gcmEncryptBytes key iv ct) with
      | some cs => (.ok (List.asString cs), r)
      | none => (.error .cryptoFailure, r)
    else
      (.error .cryptoFailure, r)

/-- The `NodeCryptoAdapter` model: 32-byte random keys, base64
export/import (Node's lenient `Buffer.from(b64)` modelled as decode-or-
empty), and the GCM cipher above. -/
def nodeCrypto : CryptoAdapterM (List Nat) Nat where
  generateKey := fun r => (.ok (randBytes 32 r), r + 1)
  exportKey := fun k r => (.ok (b64EncodeBytes k), r)
  importKey := fun s r => (.ok ((b64DecodeBytes s).getD []), r)
  encrypt := nodeEncrypt
  decrypt := nodeDecrypt

/-! ## `KeyManagerClient.parseEncryptedValue` (`examples/key-manager-client.ts`) -/

/-- Parsed form of the combined `enc:AES256:<key_id>:<ciphertext>` string. -/
structure ParsedEncryptedValue where
  keyId : String
  ciphertextB64 : String
deriving DecidableEq, Repr

/-- `parseEncryptedValue`: `null` unless the string starts with
`enc:AES256:` and splits on `:` into exactly four segments.  A pure
function in the source — it performs no network call. -/
def parseEncryptedValue (value : String) : Option ParsedEncryptedValue :=
  if strStartsWith "enc:AES256:" value = false then none
  else
    let parts := jsSplit ':' value
    if parts.length ≠ 4 then none
    else some ⟨parts.getD 2 "", parts.getD 3 ""⟩

/-! ## Concrete fixtures for witnesses -/

/-- A concrete coordinator configuration. -/
def cfg₀ : PrivateKVConfig := ⟨"alice", "privatekv", "private"⟩

/-- Adapters bundling an arbitrary crypto adapter with the two test doubles
from `adapters/memory.ts`. -/
def mockAdapters {K R : Type} (C : CryptoAdapterM K R) :
    Adapters K R MockTEEState MemoryStore :=
  ⟨C, MockTEEAdapter, MemoryStorageAdapter⟩

/-- Fresh system state for the test doubles. -/
def sys₀ {K R : Type} (C : CryptoAdapterM K R) (r : R) :
    SysState R MockTEEState MemoryStore :=
  ⟨r, ⟨[], 0⟩, [], []⟩

/-- A crypto adapter whose key generation always fails (entropy source
unavailable), used to exercise the abort path of `set`. -/
def failingCrypto : CryptoAdapterM Unit Unit where
  generateKey := fun r => (.error .cryptoFailure, r)
  exportKey := fun _ r => (.error .cryptoFailure, r)
  importKey := fun _ r => (.error .cryptoFailure, r)
  encrypt := fun _ _ r => (.error .cryptoFailure, r)
  decrypt := fun _ _ r => (.error .cryptoFailure, r)

deriving instance DecidableEq for Except

/-- The entry the model-crypto run of the concrete witness `set` stores. -/
def entryW : EncryptedEntry :=
  ⟨((mockWrapKey (getGroupId cfg₀) "modelkey-0" ⟨[], 0⟩).1.toOption.map
      (fun w => w.wrapped_key_b64)).getD "",
    (modelCrypto.encrypt "v" "modelkey-0" 1).1.toOption.getD "",
    "mock-key-1", "AES-256-GCM", 1⟩

/-- The entry the node-crypto run of the concrete witness `set` stores. -/
def entryN : EncryptedEntry :=
  ⟨((mockWrapKey (getGroupId cfg₀) (b64EncodeBytes (randBytes 32 0)) ⟨[], 0⟩).1.toOption.map
      (fun w => w.wrapped_key_b64)).getD "",
    (nodeEncrypt "hello world" (randBytes 32 0) 1).1.toOption.getD "",
    "mock-key-1", "AES-256-GCM", 1⟩

/-- Characters with a special meaning in a JavaScript regular expression. -/
def regexSpecials : List Char :=
  ['.', '*', '+', '?', '\\', '^', '$', '(', ')', '[', ']', '|', Char.ofNat 123, Char.ofNat 125]

/-- A character the regex engine treats as a literal match for itself. -/
def plainChar (c : Char) : Bool :=
  !(regexSpecials.contains c)

/-- A string free of regex metacharacters. -/
def plainStr (s : String) : Bool :=
  s.data.all plainChar

/-- Literal pieces matching exactly the given characters. -/
def litPieces (l : List Char) : List RPiece :=
  l.map (fun c => RPiece.once (RAtom.lit c))

/-! ## Helper lemmas -/

theorem asString_data (l : List Char) : (List.asString l).data = l := rfl

theorem asString_inj {l₁ l₂ : List Char} (h : List.asString l₁ = List.asString l₂) :
    l₁ = l₂ := by
  have := congrArg String.data h
  simpa using this

set_option maxRecDepth 2000 in
theorem b64IndexOf_b64CharOf : ∀ n : Nat, n < 64 → b64IndexOf (b64CharOf n) = some n := by
  decide

set_option maxRecDepth 2000 in
theorem b64CharOf_ne_eq : ∀ n : Nat, n < 64 → b64CharOf n ≠ '=' := by
  decide

theorem b64_decode_encode :
    ∀ bs : List Nat, (∀ b ∈ bs, b < 256) →
      b64DecodeChunks (b64EncodeChunks bs) = some bs := by
  intro bs
  induction bs using b64EncodeChunks.induct with
  | case1 => intro _; rfl
  | case2 a =>
    intro h
    have ha : a < 256 := h a (by simp)
    have h0 := b64IndexOf_b64CharOf (a / 4) (by omega)
    have h1 := b64IndexOf_b64CharOf (a % 4 * 16) (by omega)
    have e0 : a / 4 * 4 + a % 4 * 16 / 16 = a := by omega
    simp only [b64EncodeChunks, b64DecodeChunks, h0, h1, if_true, and_self, e0]
  | case3 a b =>
    intro h
    have ha : a < 256 := h a (by simp)
    have hb : b < 256 := h b (by simp)
    have h0 := b64IndexOf_b64CharOf (a / 4) (by omega)
    have h1 := b64IndexOf_b64CharOf (a % 4 * 16 + b / 16) (by omega)
    have h2 := b64IndexOf_b64CharOf (b % 16 * 4) (by omega)
    have hne := b64CharOf_ne_eq (b % 16 * 4) (by omega)
    have e0 : a / 4 * 4 + (a % 4 * 16 + b / 16) / 16 = a := by omega
    have e1 : (a % 4 * 16 + b / 16) % 16 * 16 + b % 16 * 4 / 4 = b := by omega
    simp only [b64EncodeChunks, b64DecodeChunks, h0, h1, h2, hne, if_true, if_false,
      ite_false, ite_true, e0, e1]
  | case4 a b c rest ih =>
    intro h
    have ha : a < 256 := h a (by simp)
    have hb : b < 256 := h b (by simp)
    have hc : c < 256 := h c (by simp)
    have hrest : ∀ x ∈ rest, x < 256 := fun x hx => h x (by simp [hx])
    have h0 := b64IndexOf_b64CharOf (a / 4) (by omega)
    have h1 := b64IndexOf_b64CharOf (a % 4 * 16 + b / 16) (by omega)
    have h2 := b64IndexOf_b64CharOf (b % 16 * 4 + c / 64) (by omega)
    have h3 := b64IndexOf_b64CharOf (c % 64) (by omega)
    have hne2 := b64CharOf_ne_eq (b % 16 * 4 + c / 64) (by omega)
    have hne3 := b64CharOf_ne_eq (c % 64) (by omega)
    have e0 : a / 4 * 4 + (a % 4 * 16 + b / 16) / 16 = a := by omega
    have e1 : (a % 4 * 16 + b / 16) % 16 * 16 + (b % 16 * 4 + c / 64) / 4 = b := by omega
    have e2 : (b % 16 * 4 + c / 64) % 4 * 64 + c % 64 = c := by omega
    simp only [b64EncodeChunks, b64DecodeChunks, h0, h1, h2, h3, hne2, hne3, if_true,
      if_false, ite_false, ite_true, ih hrest, e0, e1, e2]

theorem b64DecodeBytes_b64EncodeBytes (bs : List Nat) (h : ∀ b ∈ bs, b < 256) :
    b64DecodeBytes (b64EncodeBytes bs) = some bs := by
  unfold b64DecodeBytes b64EncodeBytes
  rw [asString_data]
  exact b64_decode_encode bs h

theorem lookup_cons_self {β : Type} (k : String) (v : β) (l : List (String × β)) :
    List.lookup k ((k, v) :: l) = some v := by
  simp [List.lookup]

theorem lookup_filter_ne {β : Type} (k : String) (l : List (String × β)) :
    List.lookup k (l.filter (fun p => p.1 != k)) = none := by
  induction l with
  | nil => rfl
  | cons p l ih =>
    obtain ⟨a, b⟩ := p
    by_cases h : a = k
    · subst h
      simpa [List.filter_cons] using ih
    · have hb : (a != k) = true := by simpa using h
      have hk : (k == a) = false := by
        simp only [beq_eq_false_iff_ne, ne_eq]
        exact fun hh => h hh.symm
      simpa [List.filter_cons, hb, List.lookup, hk] using ih

theorem str_ext {s t : String} (h : s.data = t.data) : s = t := by
  cases s
  cases t
  exact congrArg String.mk h

theorem foldr_natDigitsRevF :
    ∀ fuel n : Nat, n ≤ fuel →
      List.foldr (fun d a => a * 10 + d) 0 (natDigitsRevF fuel n) = n := by
  intro fuel
  induction fuel with
  | zero => intro n hn; interval_cases n; rfl
  | succ fuel ih =>
    intro n hn
    by_cases h0 : n = 0
    · subst h0; simp [natDigitsRevF]
    · have hdiv : n / 10 ≤ fuel := by
        have : n / 10 < n := Nat.div_lt_self (Nat.pos_of_ne_zero h0) (by omega)
        omega
      simp only [natDigitsRevF, h0, if_false, List.foldr_cons, ih (n / 10) hdiv]
      omega

theorem decDigitChar_toNat : ∀ d : Nat, d < 10 → (decDigitChar d).toNat = 48 + d := by
  decide

theorem natDigitsRevF_lt10 :
    ∀ fuel n d : Nat, d ∈ natDigitsRevF fuel n → d < 10 := by
  intro fuel
  induction fuel with
  | zero => intro n d hd; simp [natDigitsRevF] at hd
  | succ fuel ih =>
    intro n d hd
    by_cases h0 : n = 0
    · subst h0; simp [natDigitsRevF] at hd
    · simp only [natDigitsRevF, h0, if_false, List.mem_cons] at hd
      rcases hd with h | h
      · omega
      · exact ih _ _ h

theorem foldr_decDigit_eq :
    ∀ ds : List Nat, (∀ d ∈ ds, d < 10) →
      List.foldr (fun d a => a * 10 + ((decDigitChar d).toNat - 48)) 0 ds
        = List.foldr (fun d a => a * 10 + d) 0 ds := by
  intro ds
  induction ds with
  | nil => intro _; rfl
  | cons d ds ih =>
    intro h
    have hd : d < 10 := h d (by simp)
    simp only [List.foldr_cons, ih (fun x hx => h x (by simp [hx])),
      decDigitChar_toNat d hd]
    omega

theorem parseDecimal_natToString (n : Nat) : parseDecimal (natToString n) = n := by
  by_cases h0 : n = 0
  · subst h0; rfl
  · unfold natToString parseDecimal
    rw [if_neg h0, asString_data, List.foldl_map, List.foldl_reverse]
    have := foldr_decDigit_eq (natDigitsRev n) (fun d hd => natDigitsRevF_lt10 n n d hd)
    unfold natDigitsRev at this ⊢
    rw [this]
    exact foldr_natDigitsRevF n n le_rfl

theorem natToString_inj {m n : Nat} (h : natToString m = natToString n) : m = n := by
  have := congrArg parseDecimal h
  rwa [parseDecimal_natToString, parseDecimal_natToString] at this

theorem mkMockKeyId_inj {m n : Nat} (h : mkMockKeyId m = mkMockKeyId n) : m = n := by
  apply natToString_inj
  apply str_ext
  have hd := congrArg String.data h
  simp only [mkMockKeyId, String.data_append] at hd
  exact List.append_cancel_left hd

theorem plainChar_ne {c : Char} (hc : plainChar c = true) :
    c ≠ '.' ∧ c ≠ '*' ∧ c ≠ '+' ∧ c ≠ '?' ∧ c ≠ '\\' := by
  simp only [plainChar, regexSpecials, Bool.not_eq_true'] at hc
  simp only [List.contains_cons, Bool.or_eq_false_iff, beq_eq_false_iff_ne, ne_eq] at hc
  exact ⟨hc.1, hc.2.1, hc.2.2.1, hc.2.2.2.1, hc.2.2.2.2.1⟩

theorem parsePat_plain : ∀ l : List Char, l.all plainChar = true → parsePat l = litPieces l := by
  intro l
  induction l with
  | nil => intro _; rfl
  | cons c rest ih =>
    intro h
    simp only [List.all_cons, Bool.and_eq_true] at h
    obtain ⟨hc, hrest⟩ := h
    obtain ⟨hdot, _, _, _, hesc⟩ := plainChar_ne hc
    cases rest with
    | nil =>
      unfold parsePat litPieces
      simp [hdot]
    | cons c₁ rest₂ =>
      have hc₁ : plainChar c₁ = true := by
        simp only [List.all_cons, Bool.and_eq_true] at hrest
        exact hrest.1
      obtain ⟨_, h1star, h1plus, h1opt, _⟩ := plainChar_ne hc₁
      rw [parsePat.eq_def]
      simp only [if_neg hesc, if_neg hdot, if_neg h1star, if_neg h1plus, if_neg h1opt]
      rw [ih hrest]
      simp [litPieces]

theorem rmatchF_lits : ∀ (l s : List Char) (fuel : Nat), l.length < fuel →
    rmatchF fuel (litPieces l) (l ++ s) = some s := by
  intro l
  induction l with
  | nil =>
    intro s fuel hf
    cases fuel with
    | zero => omega
    | succ f => rfl
  | cons c l ih =>
    intro s fuel hf
    cases fuel with
    | zero => omega
    | succ f =>
      simp only [litPieces, List.map_cons, rmatchF, List.cons_append]
      rw [if_pos (by simp [matchAtom])]
      exact ih s f (by simp at hf; omega)

theorem rmatch_litPieces (l s : List Char) : rmatch (litPieces l) (l ++ s) = some s := by
  unfold rmatch
  apply rmatchF_lits
  simp [litPieces]
  omega

theorem jsReplaceAnchored_strip (pat : String) (hp : plainStr pat = true) (rest : List Char) :
    jsReplaceAnchored pat (List.asString (pat.data ++ rest)) = List.asString rest := by
  unfold jsReplaceAnchored
  rw [asString_data, parsePat_plain pat.data hp, rmatch_litPieces]

theorem mem_insertLe {x y : String} {l : List String} :
    y ∈ insertLe x l ↔ y = x ∨ y ∈ l := by
  induction l with
  | nil => simp [insertLe]
  | cons z l ih =>
    simp only [insertLe]
    split
    · simp
    · simp [ih]
      tauto

theorem mem_sortStrings {y : String} {l : List String} :
    y ∈ sortStrings l ↔ y ∈ l := by
  induction l with
  | nil => simp [sortStrings]
  | cons x l ih =>
    simp [sortStrings, mem_insertLe, ih]

theorem randBytes_lt (n seed : Nat) : ∀ b ∈ randBytes n seed, b < 256 := by
  intro b hb
  simp only [randBytes, List.mem_map] at hb
  obtain ⟨i, _, rfl⟩ := hb
  omega

theorem gcmTag_lt (key iv ct : List Nat) : ∀ b ∈ gcmTag key iv ct, b < 256 := by
  intro b hb
  simp only [gcmTag, List.mem_map] at hb
  obtain ⟨i, _, rfl⟩ := hb
  omega

theorem zipWith_xor_mod_lt :
    ∀ (l₁ l₂ : List Nat) (b : Nat),
      b ∈ l₁.zipWith (fun x k => (x ^^^ k) % 256) l₂ → b < 256 := by
  intro l₁
  induction l₁ with
  | nil => intro l₂ b hb; simp at hb
  | cons x l₁ ih =>
    intro l₂ b hb
    cases l₂ with
    | nil => simp at hb
    | cons y l₂ =>
      simp only [List.zipWith_cons_cons, List.mem_cons] at hb
      rcases hb with h | h
      · omega
      · exact ih l₂ b h

theorem gcmEncryptBytes_lt (key iv pt : List Nat) : ∀ b ∈ gcmEncryptBytes key iv pt, b < 256 :=
  fun b hb => zipWith_xor_mod_lt pt _ b hb

theorem gcmEncryptBytes_length (key iv pt : List Nat) :
    (gcmEncryptBytes key iv pt).length = pt.length := by
  simp [gcmEncryptBytes, gcmKeystream]

theorem randBytes_length (n seed : Nat) : (randBytes n seed).length = n := by
  simp [randBytes]

theorem gcmTag_length (key iv ct : List Nat) : (gcmTag key iv ct).length = 16 := by
  simp [gcmTag]

theorem modelCrypto_roundtrip : CryptoRoundtrip modelCrypto := by
  intro k e r₁ r₁' hexp r₂
  have he : k = e := by
    have := congrArg Prod.fst hexp
    simpa [modelCrypto] using this
  subst he
  refine ⟨k, r₂, rfl, ?_⟩
  intro p c r₃ r₃' henc r₄
  have hc : List.asString (p.data ++ modelTag k) = c := by
    have := congrArg Prod.fst henc
    simpa [modelCrypto] using this
  subst hc
  have hlen : (p.data ++ modelTag k).length = p.data.length + 2 := by
    simp [modelTag]
  simp only [modelCrypto, asString_data, hlen, Nat.add_sub_cancel]
  rw [List.drop_left, List.take_left]
  rw [if_pos (⟨rfl, by omega⟩ : modelTag k = modelTag k ∧ 2 ≤ p.data.length + 2)]
  rfl

/-! ## Claims -/

/-- C3: `PrivateKV.set` performs generateKey, encrypt, exportKey, wrapKey,
entry assembly and `Storage.set` in that fixed order; if any step before the
storage write throws, the error propagates as the result, `Storage.set` is
never invoked (no storage event is in the trace) and the storage state is
unchanged; when all pre-storage steps succeed, the storage adapter is called
exactly once, last, with the assembled entry. -/
theorem set_fixed_order_and_abort {K R T U : Type} (cfg : PrivateKVConfig)
    (A : Adapters K R T U) (key p : String) (s : SysState R T U) :
    (∀ e r1, A.crypto.generateKey s.cr = (.error e, r1) →
      PrivateKV.set cfg A key p s
        = ⟨.error e, ⟨r1, s.te, s.st, s.cache⟩, [.cryptoGenerateKey]⟩) ∧
    (∀ kh r1 e r2, A.crypto.generateKey s.cr = (.ok kh, r1) →
      A.crypto.encrypt p kh r1 = (.error e, r2) →
      PrivateKV.set cfg A key p s
        = ⟨.error e, ⟨r2, s.te, s.st, s.cache⟩, [.cryptoGenerateKey, .cryptoEncrypt p]⟩) ∧
    (∀ kh r1 ct r2 e r3, A.crypto.generateKey s.cr = (.ok kh, r1) →
      A.crypto.encrypt p kh r1 = (.ok ct, r2) →
      A.crypto.exportKey kh r2 = (.error e, r3) →
      PrivateKV.set cfg A key p s
        = ⟨.error e, ⟨r3, s.te, s.st, s.cache⟩,
            [.cryptoGenerateKey, .cryptoEncrypt p, .cryptoExportKey]⟩) ∧
    (∀ kh r1 ct r2 ek r3 e t1, A.crypto.generateKey s.cr = (.ok kh, r1) →
      A.crypto.encrypt p kh r1 = (.ok ct, r2) →
      A.crypto.exportKey kh r2 = (.ok ek, r3) →
      A.tee.wrapKey (getGroupId cfg) ek s.te = (.error e, t1) →
      PrivateKV.set cfg A key p s
        = ⟨.error e, ⟨r3, t1, s.st, s.cache⟩,
            [.cryptoGenerateKey, .cryptoEncrypt p, .cryptoExportKey,
              .teeWrapKey (getGroupId cfg) ek]⟩) ∧
    (∀ kh r1 ct r2 ek r3 w t1, A.crypto.generateKey s.cr = (.ok kh, r1) →
      A.crypto.encrypt p kh r1 = (.ok ct, r2) →
      A.crypto.exportKey kh r2 = (.ok ek, r3) →
      A.tee.wrapKey (getGroupId cfg) ek s.te = (.ok w, t1) →
      PrivateKV.set cfg A key p s
        = ⟨(A.storage.set (getFullKey cfg key)
              ⟨w.wrapped_key_b64, ct, w.key_id, "AES-256-GCM", 1⟩ s.st).1,
            ⟨r3, t1,
              (A.storage.set (getFullKey cfg key)
                ⟨w.wrapped_key_b64, ct, w.key_id, "AES-256-GCM", 1⟩ s.st).2, s.cache⟩,
            [.cryptoGenerateKey, .cryptoEncrypt p, .cryptoExportKey,
              .teeWrapKey (getGroupId cfg) ek,
              .storageSet (getFullKey cfg key)
                ⟨w.wrapped_key_b64, ct, w.key_id, "AES-256-GCM", 1⟩]⟩) := by
  refine ⟨?_, ?_, ?_, ?_, ?_⟩
  · intro e r1 hgen
    unfold PrivateKV.set
    simp only [hgen]
  · intro kh r1 e r2 hgen henc
    unfold PrivateKV.set
    simp only [hgen, henc]
  · intro kh r1 ct r2 e r3 hgen henc hexp
    unfold PrivateKV.set
    simp only [hgen, henc, hexp]
  · intro kh r1 ct r2 ek r3 e t1 hgen henc hexp hwrap
    unfold PrivateKV.set
    simp only [hgen, henc, hexp, hwrap]
  · intro kh r1 ct r2 ek r3 w t1 hgen henc hexp hwrap
    unfold PrivateKV.set
    simp only [hgen, henc, hexp, hwrap]

/-- Witness for C3 at a concrete input: with a crypto adapter whose key
generation fails, `set` aborts with that error, makes no storage call and
leaves the store unchanged. -/
theorem set_fixed_order_and_abort_witness :
    PrivateKV.set cfg₀ (mockAdapters failingCrypto) "k" "v" (sys₀ failingCrypto ())
      = ⟨.error .cryptoFailure, ⟨(), ⟨[], 0⟩, [], []⟩, [.cryptoGenerateKey]⟩ :=
  (set_fixed_order_and_abort cfg₀ (mockAdapters failingCrypto) "k" "v"
    (sys₀ failingCrypto ())).1 .cryptoFailure () rfl

/-- C6: `get` of an absent key returns `null` (not an error, not an empty
string), with the storage lookup as its only adapter call — no TEE call and
no crypto operation — and leaves every state component unchanged. -/
theorem get_absent_returns_null {K R T : Type} (cfg : PrivateKVConfig)
    (C : CryptoAdapterM K R) (tee : TEEAdapterM T) (key : String)
    (s : SysState R T MemoryStore)
    (habs : List.lookup (getFullKey cfg key) s.st = none) :
    PrivateKV.get cfg ⟨C, tee, MemoryStorageAdapter⟩ key s
      = ⟨.ok none, ⟨s.cr, s.te, s.st, s.cache⟩, [.storageGet (getFullKey cfg key)]⟩ := by
  unfold PrivateKV.get MemoryStorageAdapter
  simp only [habs]

/-- Witness for C6: a key that was never written. -/
theorem get_absent_returns_null_witness :
    PrivateKV.get cfg₀ (mockAdapters modelCrypto) "never-written" (sys₀ modelCrypto 0)
      = ⟨.ok none, ⟨0, ⟨[], 0⟩, [], []⟩, [.storageGet (getFullKey cfg₀ "never-written")]⟩ :=
  get_absent_returns_null cfg₀ modelCrypto MockTEEAdapter "never-written"
    (sys₀ modelCrypto 0) rfl

/-- C7: `delete` then `get` of the same key returns `null`, for every prior
storage state — whether or not the key had been written — and the delete
itself succeeds without error. -/
theorem delete_then_get_null {K R T : Type} (cfg : PrivateKVConfig)
    (C : CryptoAdapterM K R) (tee : TEEAdapterM T) (key : String)
    (s : SysState R T MemoryStore) :
    (PrivateKV.delete cfg ⟨C, tee, MemoryStorageAdapter⟩ key s).res = .ok ⟨none⟩ ∧
    (PrivateKV.get cfg ⟨C, tee, MemoryStorageAdapter⟩ key
        (PrivateKV.delete cfg ⟨C, tee, MemoryStorageAdapter⟩ key s).state).res = .ok none := by
  constructor
  · rfl
  · unfold PrivateKV.get PrivateKV.delete MemoryStorageAdapter
    simp only [lookup_filter_ne]

/-- C8: `parseEncryptedValue` succeeds exactly on strings with the literal
`enc:AES256:` start that split on `:` into exactly four segments; the two
concrete scenarios from the spec.  (The function is pure in the source: it
performs no network call on any input.) -/
theorem parseEncryptedValue_spec :
    (∀ value : String,
      (parseEncryptedValue value).isSome
        = (strStartsWith "enc:AES256:" value && (jsSplit ':' value).length == 4)) ∧
    parseEncryptedValue "enc:AES256:abc123:ZGVmNDU2" = some ⟨"abc123", "ZGVmNDU2"⟩ ∧
    parseEncryptedValue "not-encrypted" = none := by
  refine ⟨?_, by decide, by decide⟩
  intro value
  unfold parseEncryptedValue
  by_cases hsw : strStartsWith "enc:AES256:" value = false
  · simp [hsw]
  · have hsw' : strStartsWith "enc:AES256:" value = true := by
      revert hsw
      cases strStartsWith "enc:AES256:" value <;> simp
    by_cases hlen : (jsSplit ':' value).length = 4
    · simp [hsw', hlen]
    · simp [hsw', hlen]

/-- C10: `MockTEEAdapter.getKeyId` mints a fresh id from the incremented
counter on every call — two successive calls return distinct ids even for
the same group — so key-id stability at the adapter level does not exist;
`PrivateKV.getKeyId` is stable only because the coordinator caches the
first returned value (a second coordinator call returns the cached id with
no TEE call), and no coordinator operation ever removes a cache entry. -/
theorem mock_getKeyId_fresh_and_cache {K R : Type} (C : CryptoAdapterM K R) :
    (∀ (g : String) (t : MockTEEState),
      mockGetKeyId g t
        = (.ok (mkMockKeyId (t.keyIdCounter + 1)), ⟨t.keys, t.keyIdCounter + 1⟩)) ∧
    (∀ (g g' : String) (t : MockTEEState),
      (mockGetKeyId g t).1 ≠ (mockGetKeyId g' (mockGetKeyId g t).2).1) ∧
    (∀ (cfg : PrivateKVConfig) (s : SysState R MockTEEState MemoryStore) (id : String),
      (PrivateKV.getKeyId cfg (mockAdapters C) s).res = .ok id →
      PrivateKV.getKeyId cfg (mockAdapters C) (PrivateKV.getKeyId cfg (mockAdapters C) s).state
        = ⟨.ok id, (PrivateKV.getKeyId cfg (mockAdapters C) s).state, []⟩) ∧
    (∀ (cfg : PrivateKVConfig) (key pl : String) (s : SysState R MockTEEState MemoryStore),
      (PrivateKV.set cfg (mockAdapters C) key pl s).state.cache = s.cache ∧
      (PrivateKV.get cfg (mockAdapters C) key s).state.cache = s.cache ∧
      (PrivateKV.delete cfg (mockAdapters C) key s).state.cache = s.cache ∧
      (PrivateKV.list cfg (mockAdapters C) key s).state.cache = s.cache) := by
  refine ⟨fun g t => rfl, ?_, ?_, ?_⟩
  · intro g g' t
    simp only [mockGetKeyId, ne_eq, Except.ok.injEq]
    intro h
    have := mkMockKeyId_inj h
    omega
  · intro cfg s id h
    unfold PrivateKV.getKeyId at h ⊢
    rcases hcache : List.lookup (getGroupId cfg) s.cache with _ | k
    · simp only [hcache] at h
      simp only [mockAdapters, MockTEEAdapter, mockGetKeyId] at h ⊢
      simp only [hcache]
      have hid : mkMockKeyId (s.te.keyIdCounter + 1) = id := by
        simpa using h
      subst hid
      simp [lookup_cons_self]
    · simp only [hcache] at h ⊢
      have : k = id := by simpa using h
      subst this
      simp [hcache]
  · intro cfg key pl s
    refine ⟨?_, ?_, rfl, rfl⟩
    · unfold PrivateKV.set
      rcases hgen : C.generateKey s.cr with ⟨rg, r1⟩
      cases rg with
      | error e => simp [mockAdapters, hgen]
      | ok kh =>
        rcases henc : C.encrypt pl kh r1 with ⟨re, r2⟩
        cases re with
        | error e => simp [mockAdapters, hgen, henc]
        | ok ct =>
          rcases hexp : C.exportKey kh r2 with ⟨rx, r3⟩
          cases rx with
          | error e => simp [mockAdapters, hgen, henc, hexp]
          | ok ek =>
            rcases hwrap : mockWrapKey (getGroupId cfg) ek s.te with ⟨rw', t1⟩
            cases rw' with
            | error e => simp [hgen, henc, hexp, mockAdapters, MockTEEAdapter, hwrap]
            | ok w => simp [hgen, henc, hexp, mockAdapters, MockTEEAdapter, hwrap,
                MemoryStorageAdapter]
    · unfold PrivateKV.get
      rcases hg : List.lookup (getFullKey cfg key) s.st with _ | entry
      · simp [mockAdapters, MemoryStorageAdapter, hg]
      · rcases hu : mockUnwrapKey (getGroupId cfg) entry.wrapped_key s.te with ⟨ru, t1⟩
        cases ru with
        | error e => simp [mockAdapters, MemoryStorageAdapter, MockTEEAdapter, hg, hu]
        | ok uw =>
          rcases himp : C.importKey uw.plaintext_key_b64 s.cr with ⟨ri, r1⟩
          cases ri with
          | error e => simp [mockAdapters, MemoryStorageAdapter, MockTEEAdapter, hg, hu, himp]
          | ok kh =>
            rcases hdec : C.decrypt entry.ciphertext kh r1 with ⟨rd, r2⟩
            cases rd with
            | error e =>
              simp [mockAdapters, MemoryStorageAdapter, MockTEEAdapter, hg, hu, himp, hdec]
            | ok pt =>
              simp [mockAdapters, MemoryStorageAdapter, MockTEEAdapter, hg, hu, himp, hdec]

/-- Witness for C10: from a fresh mock state, two adapter-level calls return
`mock-key-1` and then `mock-key-2`, while two coordinator calls both return
`mock-key-1`, the second from the cache with no TEE call. -/
theorem mock_getKeyId_fresh_and_cache_witness :
    (mockGetKeyId "alice/private" ⟨[], 0⟩).1 ≠
      (mockGetKeyId "alice/private" (mockGetKeyId "alice/private" ⟨[], 0⟩).2).1 ∧
    PrivateKV.getKeyId cfg₀ (mockAdapters modelCrypto)
        (PrivateKV.getKeyId cfg₀ (mockAdapters modelCrypto) (sys₀ modelCrypto 0)).state
      = ⟨.ok "mock-key-1",
          (PrivateKV.getKeyId cfg₀ (mockAdapters modelCrypto) (sys₀ modelCrypto 0)).state,
          []⟩ :=
  ⟨(mock_getKeyId_fresh_and_cache modelCrypto).2.1 "alice/private" "alice/private" ⟨[], 0⟩,
    (mock_getKeyId_fresh_and_cache modelCrypto).2.2.1 cfg₀ (sys₀ modelCrypto 0)
      "mock-key-1" (by decide)⟩

set_option maxRecDepth 4000 in
/-- Counterexample to C4 as stated: a key wrapped under group `g1` is
accepted — not rejected — by `unwrapKey` under the different group `g2`;
the mock's lookup never consults the group identifier. -/
theorem mock_unwrap_cross_group_counterexample :
    (mockWrapKey "g1" "KEY" ⟨[], 0⟩).1
        = .ok ⟨"d3JhcHBlZDpLRVk6ZzE6bW9jay1rZXktMQ==", "mock-key-1"⟩ ∧
    (mockUnwrapKey "g2" "d3JhcHBlZDpLRVk6ZzE6bW9jay1rZXktMQ=="
        (mockWrapKey "g1" "KEY" ⟨[], 0⟩).2).1
      = .ok ⟨"KEY", "mock-key-1"⟩ ∧
    "g1" ≠ "g2" := by
  decide

/-- C4 (amended): `MockTEEAdapter.unwrapKey g w` fails (with the propagated
`Key not found` error, no retry) exactly when `w` is not in the adapter's
wrapped-key table, i.e. was not produced by any prior `wrapKey` call on that
instance — under any group; the group argument is ignored, so a wrapped key
produced under a different group identifier is accepted rather than
rejected. -/
theorem mock_unwrap_fails_iff_unknown_wrapped (g w : String) (t : MockTEEState) :
    (List.lookup w t.keys = none → mockUnwrapKey g w t = (.error .teeKeyNotFound, t)) ∧
    (∀ r, List.lookup w t.keys = some r →
      mockUnwrapKey g w t = (.ok ⟨r.plaintext, extractKeyId w⟩, t)) ∧
    (∀ g' pk res t1, mockWrapKey g' pk t = (.ok res, t1) →
      mockUnwrapKey g res.wrapped_key_b64 t1
        = (.ok ⟨pk, extractKeyId res.wrapped_key_b64⟩, t1)) := by
  refine ⟨?_, ?_, ?_⟩
  · intro h
    unfold mockUnwrapKey
    simp only [h]
  · intro r h
    unfold mockUnwrapKey
    simp only [h]
  · intro g' pk res t1 h
    unfold mockWrapKey at h
    rcases hb : jsBtoa ("wrapped:" ++ pk ++ ":" ++ g' ++ ":" ++ mkMockKeyId (t.keyIdCounter + 1))
      with _ | wrapped
    · simp only [hb] at h
      cases h
    · simp only [hb] at h
      obtain ⟨hres, ht1⟩ := Prod.mk.injEq .. ▸ h
      have hres' : res = ⟨wrapped, mkMockKeyId (t.keyIdCounter + 1)⟩ := by
        cases hres
        rfl
      subst hres'
      subst ht1
      unfold mockUnwrapKey
      simp only [lookup_cons_self]

set_option maxRecDepth 4000 in
/-- Witness for the amended C4 at a concrete input: the two live branches —
an unknown wrapped key is rejected, a known one (wrapped under a different
group) is accepted. -/
theorem mock_unwrap_fails_iff_unknown_wrapped_witness :
    mockUnwrapKey "g2" "bogus" ⟨[], 0⟩ = (.error .teeKeyNotFound, ⟨[], 0⟩) ∧
    mockUnwrapKey "g2" "d3JhcHBlZDpLRVk6ZzE6bW9jay1rZXktMQ=="
        (mockWrapKey "g1" "KEY" ⟨[], 0⟩).2
      = (.ok ⟨"KEY", extractKeyId "d3JhcHBlZDpLRVk6ZzE6bW9jay1rZXktMQ=="⟩,
          (mockWrapKey "g1" "KEY" ⟨[], 0⟩).2) :=
  ⟨(mock_unwrap_fails_iff_unknown_wrapped "g2" "bogus" ⟨[], 0⟩).1 rfl,
    (mock_unwrap_fails_iff_unknown_wrapped "g2" "d3JhcHBlZDpLRVk6ZzE6bW9jay1rZXktMQ=="
        ⟨[], 0⟩).2.2 "g1" "KEY"
      ⟨"d3JhcHBlZDpLRVk6ZzE6bW9jay1rZXktMQ==", "mock-key-1"⟩
      (mockWrapKey "g1" "KEY" ⟨[], 0⟩).2 (by decide)⟩

/-- C1: on one coordinator instance configured with `MemoryStorageAdapter`,
`MockTEEAdapter` and a crypto adapter satisfying the documented round-trip
contract, `set(k, p)` followed by `get(k)` returns exactly `p`, for every
key, plaintext, configuration and prior state. -/
theorem set_then_get_roundtrip {K R : Type} (C : CryptoAdapterM K R)
    (hC : CryptoRoundtrip C) (cfg : PrivateKVConfig) (key p : String)
    (s : SysState R MockTEEState MemoryStore) (res : WriteResult)
    (hset : (PrivateKV.set cfg (mockAdapters C) key p s).res = .ok res) :
    (PrivateKV.get cfg (mockAdapters C) key
        (PrivateKV.set cfg (mockAdapters C) key p s).state).res = .ok (some p) := by
  rcases hgen : C.generateKey s.cr with ⟨rg, r1⟩
  cases rg with
  | error e => simp [PrivateKV.set, mockAdapters, hgen] at hset
  | ok kh =>
  rcases henc : C.encrypt p kh r1 with ⟨re, r2⟩
  cases re with
  | error e => simp [PrivateKV.set, mockAdapters, hgen, henc] at hset
  | ok ct =>
  rcases hexp : C.exportKey kh r2 with ⟨rx, r3⟩
  cases rx with
  | error e => simp [PrivateKV.set, mockAdapters, hgen, henc, hexp] at hset
  | ok ek =>
  rcases hwrap : mockWrapKey (getGroupId cfg) ek s.te with ⟨rw', t1⟩
  cases rw' with
  | error e =>
    simp [PrivateKV.set, mockAdapters, MockTEEAdapter, hgen, henc, hexp, hwrap] at hset
  | ok w =>
  unfold mockWrapKey at hwrap
  dsimp only at hwrap
  rcases hb : jsBtoa ("wrapped:" ++ ek ++ ":" ++ getGroupId cfg ++ ":"
      ++ mkMockKeyId (s.te.keyIdCounter + 1)) with _ | wrapped
  · rw [hb] at hwrap
    cases hwrap
  · rw [hb] at hwrap
    injection hwrap with h1 h2
    injection h1 with h1
    subst h1 h2
    have hwrap' : mockWrapKey (getGroupId cfg) ek s.te
        = (.ok ⟨wrapped, mkMockKeyId (s.te.keyIdCounter + 1)⟩,
            ⟨(wrapped, ⟨wrapped, ek⟩) :: s.te.keys.filter (fun q => q.1 != wrapped),
              s.te.keyIdCounter + 1⟩) := by
      unfold mockWrapKey
      dsimp only
      rw [hb]
    have hun : mockUnwrapKey (getGroupId cfg) wrapped
        ⟨(wrapped, ⟨wrapped, ek⟩) :: s.te.keys.filter (fun q => q.1 != wrapped),
          s.te.keyIdCounter + 1⟩
        = (.ok ⟨ek, extractKeyId wrapped⟩,
            ⟨(wrapped, ⟨wrapped, ek⟩) :: s.te.keys.filter (fun q => q.1 != wrapped),
              s.te.keyIdCounter + 1⟩) := by
      unfold mockUnwrapKey
      rw [lookup_cons_self]
    obtain ⟨k', r₂', himp, hdec_ok⟩ := hC kh ek r2 r3 hexp r3
    rcases hdec : C.decrypt ct k' r₂' with ⟨rd, rr⟩
    have hrd : rd = .ok p := by
      have := hdec_ok p ct r1 r2 henc r₂'
      rw [hdec] at this
      exact this
    subst hrd
    simp only [PrivateKV.set, PrivateKV.get, mockAdapters, MockTEEAdapter,
      MemoryStorageAdapter, hgen, henc, hexp, hwrap', lookup_cons_self, hun, himp, hdec]

set_option maxRecDepth 8000 in
/-- Witness for C1 at a concrete input: `set("k", "v")` succeeds and
`get("k")` returns `"v"` with the model crypto adapter. -/
theorem set_then_get_roundtrip_witness :
    (PrivateKV.set cfg₀ (mockAdapters modelCrypto) "k" "v" (sys₀ modelCrypto 0)).res
        = .ok ⟨none⟩ ∧
    (PrivateKV.get cfg₀ (mockAdapters modelCrypto) "k"
        (PrivateKV.set cfg₀ (mockAdapters modelCrypto) "k" "v" (sys₀ modelCrypto 0)).state).res
      = .ok (some "v") :=
  ⟨by decide,
    set_then_get_roundtrip modelCrypto modelCrypto_roundtrip cfg₀ "k" "v"
      (sys₀ modelCrypto 0) ⟨none⟩ (by decide)⟩

theorem get_step_eqs {K R T U : Type} (cfg : PrivateKVConfig) (A : Adapters K R T U)
    (key : String) (s : SysState R T U) :
    (∀ e u1, A.storage.get (getFullKey cfg key) s.st = (.error e, u1) →
      PrivateKV.get cfg A key s
        = ⟨.error e, ⟨s.cr, s.te, u1, s.cache⟩, [.storageGet (getFullKey cfg key)]⟩) ∧
    (∀ u1, A.storage.get (getFullKey cfg key) s.st = (.ok none, u1) →
      PrivateKV.get cfg A key s
        = ⟨.ok none, ⟨s.cr, s.te, u1, s.cache⟩, [.storageGet (getFullKey cfg key)]⟩) ∧
    (∀ entry u1 e t1, A.storage.get (getFullKey cfg key) s.st = (.ok (some entry), u1) →
      A.tee.unwrapKey (getGroupId cfg) entry.wrapped_key s.te = (.error e, t1) →
      PrivateKV.get cfg A key s
        = ⟨.error e, ⟨s.cr, t1, u1, s.cache⟩,
            [.storageGet (getFullKey cfg key),
              .teeUnwrapKey (getGroupId cfg) entry.wrapped_key]⟩) ∧
    (∀ entry u1 uw t1, A.storage.get (getFullKey cfg key) s.st = (.ok (some entry), u1) →
      A.tee.unwrapKey (getGroupId cfg) entry.wrapped_key s.te = (.ok uw, t1) →
      (PrivateKV.get cfg A key s).trace
        = .storageGet (getFullKey cfg key)
            :: .teeUnwrapKey (getGroupId cfg) entry.wrapped_key
            :: (PrivateKV.get cfg A key s).trace.drop 2 ∧
      ∀ ev ∈ (PrivateKV.get cfg A key s).trace.drop 2, ev.isCrypto = true) := by
  refine ⟨?_, ?_, ?_, ?_⟩
  · intro e u1 hsg
    unfold PrivateKV.get
    simp only [hsg]
  · intro u1 hsg
    unfold PrivateKV.get
    simp only [hsg]
  · intro entry u1 e t1 hsg hun
    unfold PrivateKV.get
    simp only [hsg, hun]
  · intro entry u1 uw t1 hsg hun
    unfold PrivateKV.get
    rcases himp : A.crypto.importKey uw.plaintext_key_b64 s.cr with ⟨ri, r1⟩
    cases ri with
    | error e => simp [hsg, hun, himp, Event.isCrypto]
    | ok kh =>
      rcases hdec : A.crypto.decrypt entry.ciphertext kh r1 with ⟨rd, r2⟩
      cases rd with
      | error e => simp [hsg, hun, himp, hdec, Event.isCrypto]
      | ok pt => simp [hsg, hun, himp, hdec, Event.isCrypto]

theorem event_crypto_not_storage (ev : Event) (h : ev.isCrypto = true) :
    ev.isStorage = false := by
  cases ev <;> simp_all [Event.isCrypto, Event.isStorage]

theorem event_crypto_not_tee (ev : Event) (h : ev.isCrypto = true) :
    ev.isTee = false := by
  cases ev <;> simp_all [Event.isCrypto, Event.isTee]

/-- C2: boundary isolation.  During `set` the storage adapter is called only
as `storageSet fullKey entry` where the entry consists of the wrap result,
the locally produced ciphertext, the key id, `"AES-256-GCM"` and `1`, and
the TEE adapter is called only as `wrapKey groupId e` with `e` the exported
ephemeral key; during `get` the storage adapter is called only as
`storageGet fullKey`, and the TEE adapter only as `unwrapKey groupId
entry.wrapped_key` with the wrapped key of the fetched entry — so the
plaintext and the unwrapped per-value key never cross the storage boundary
and the ciphertext never crosses the TEE boundary. -/
theorem plaintext_and_keys_isolated {K R T U : Type} (cfg : PrivateKVConfig)
    (A : Adapters K R T U) (key p : String) (s : SysState R T U) :
    ((∀ k entry, Event.storageSet k entry ∈ (PrivateKV.set cfg A key p s).trace →
        k = getFullKey cfg key ∧ entry.algorithm = "AES-256-GCM" ∧ entry.v = 1 ∧
        ∃ kh r1 r2 ek r3 w t1,
          A.crypto.generateKey s.cr = (.ok kh, r1) ∧
          A.crypto.encrypt p kh r1 = (.ok entry.ciphertext, r2) ∧
          A.crypto.exportKey kh r2 = (.ok ek, r3) ∧
          A.tee.wrapKey (getGroupId cfg) ek s.te = (.ok w, t1) ∧
          entry.wrapped_key = w.wrapped_key_b64 ∧ entry.key_id = w.key_id) ∧
      (∀ ev ∈ (PrivateKV.set cfg A key p s).trace, ev.isStorage = true →
        ∃ k entry, ev = .storageSet k entry) ∧
      (∀ gid arg, Event.teeWrapKey gid arg ∈ (PrivateKV.set cfg A key p s).trace →
        gid = getGroupId cfg ∧
        ∃ kh r1 r2 r3, A.crypto.generateKey s.cr = (.ok kh, r1) ∧
          A.crypto.exportKey kh r2 = (.ok arg, r3)) ∧
      (∀ ev ∈ (PrivateKV.set cfg A key p s).trace, ev.isTee = true →
        ∃ gid arg, ev = .teeWrapKey gid arg)) ∧
    ((∀ ev ∈ (PrivateKV.get cfg A key s).trace, ev.isStorage = true →
        ev = .storageGet (getFullKey cfg key)) ∧
      (∀ gid warg, Event.teeUnwrapKey gid warg ∈ (PrivateKV.get cfg A key s).trace →
        gid = getGroupId cfg ∧
        ∃ entry u1, A.storage.get (getFullKey cfg key) s.st = (.ok (some entry), u1) ∧
          warg = entry.wrapped_key) ∧
      (∀ ev ∈ (PrivateKV.get cfg A key s).trace, ev.isTee = true →
        ∃ gid warg, ev = .teeUnwrapKey gid warg)) := by
  have hset : ∀ (P : StepOut WriteResult R T U → Prop),
      (∀ e r1, A.crypto.generateKey s.cr = (.error e, r1) →
        P ⟨.error e, ⟨r1, s.te, s.st, s.cache⟩, [.cryptoGenerateKey]⟩) →
      (∀ kh r1 e r2, A.crypto.generateKey s.cr = (.ok kh, r1) →
        A.crypto.encrypt p kh r1 = (.error e, r2) →
        P ⟨.error e, ⟨r2, s.te, s.st, s.cache⟩,
            [.cryptoGenerateKey, .cryptoEncrypt p]⟩) →
      (∀ kh r1 ct r2 e r3, A.crypto.generateKey s.cr = (.ok kh, r1) →
        A.crypto.encrypt p kh r1 = (.ok ct, r2) →
        A.crypto.exportKey kh r2 = (.error e, r3) →
        P ⟨.error e, ⟨r3, s.te, s.st, s.cache⟩,
            [.cryptoGenerateKey, .cryptoEncrypt p, .cryptoExportKey]⟩) →
      (∀ kh r1 ct r2 ek r3 e t1, A.crypto.generateKey s.cr = (.ok kh, r1) →
        A.crypto.encrypt p kh r1 = (.ok ct, r2) →
        A.crypto.exportKey kh r2 = (.ok ek, r3) →
        A.tee.wrapKey (getGroupId cfg) ek s.te = (.error e, t1) →
        P ⟨.error e, ⟨r3, t1, s.st, s.cache⟩,
            [.cryptoGenerateKey, .cryptoEncrypt p, .cryptoExportKey,
              .teeWrapKey (getGroupId cfg) ek]⟩) →
      (∀ kh r1 ct r2 ek r3 w t1, A.crypto.generateKey s.cr = (.ok kh, r1) →
        A.crypto.encrypt p kh r1 = (.ok ct, r2) →
        A.crypto.exportKey kh r2 = (.ok ek, r3) →
        A.tee.wrapKey (getGroupId cfg) ek s.te = (.ok w, t1) →
        P ⟨(A.storage.set (getFullKey cfg key)
              ⟨w.wrapped_key_b64, ct, w.key_id, "AES-256-GCM", 1⟩ s.st).1,
            ⟨r3, t1,
              (A.storage.set (getFullKey cfg key)
                ⟨w.wrapped_key_b64, ct, w.key_id, "AES-256-GCM", 1⟩ s.st).2, s.cache⟩,
            [.cryptoGenerateKey, .cryptoEncrypt p, .cryptoExportKey,
              .teeWrapKey (getGroupId cfg) ek,
              .storageSet (getFullKey cfg key)
                ⟨w.wrapped_key_b64, ct, w.key_id, "AES-256-GCM", 1⟩]⟩) →
      P (PrivateKV.set cfg A key p s) := by
    intro P h1 h2 h3 h4 h5
    unfold PrivateKV.set
    rcases hgen : A.crypto.generateKey s.cr with ⟨rg, r1⟩
    cases rg with
    | error e => simpa using h1 e r1 hgen
    | ok kh =>
      rcases henc : A.crypto.encrypt p kh r1 with ⟨re, r2⟩
      cases re with
      | error e => simpa [hgen, henc] using h2 kh r1 e r2 hgen henc
      | ok ct =>
        rcases hexp : A.crypto.exportKey kh r2 with ⟨rx, r3⟩
        cases rx with
        | error e => simpa [hgen, henc, hexp] using h3 kh r1 ct r2 e r3 hgen henc hexp
        | ok ek =>
          rcases hwrap : A.tee.wrapKey (getGroupId cfg) ek s.te with ⟨rw', t1⟩
          cases rw' with
          | error e =>
            simpa [hgen, henc, hexp, hwrap] using
              h4 kh r1 ct r2 ek r3 e t1 hgen henc hexp hwrap
          | ok w =>
            simpa [hgen, henc, hexp, hwrap] using
              h5 kh r1 ct r2 ek r3 w t1 hgen henc hexp hwrap
  constructor
  · refine hset (fun out =>
      (∀ k entry, Event.storageSet k entry ∈ out.trace →
        k = getFullKey cfg key ∧ entry.algorithm = "AES-256-GCM" ∧ entry.v = 1 ∧
        ∃ kh r1 r2 ek r3 w t1,
          A.crypto.generateKey s.cr = (.ok kh, r1) ∧
          A.crypto.encrypt p kh r1 = (.ok entry.ciphertext, r2) ∧
          A.crypto.exportKey kh r2 = (.ok ek, r3) ∧
          A.tee.wrapKey (getGroupId cfg) ek s.te = (.ok w, t1) ∧
          entry.wrapped_key = w.wrapped_key_b64 ∧ entry.key_id = w.key_id) ∧
      (∀ ev ∈ out.trace, ev.isStorage = true → ∃ k entry, ev = .storageSet k entry) ∧
      (∀ gid arg, Event.teeWrapKey gid arg ∈ out.trace →
        gid = getGroupId cfg ∧
        ∃ kh r1 r2 r3, A.crypto.generateKey s.cr = (.ok kh, r1) ∧
          A.crypto.exportKey kh r2 = (.ok arg, r3)) ∧
      (∀ ev ∈ out.trace, ev.isTee = true → ∃ gid arg, ev = .teeWrapKey gid arg))
      ?_ ?_ ?_ ?_ ?_
    · intro e r1 _
      refine ⟨?_, ?_, ?_, ?_⟩
      · intro k entry hmem
        simp at hmem
      · intro ev hmem hst
        simp only [List.mem_cons, List.not_mem_nil, or_false] at hmem
        subst hmem
        exact absurd hst (by simp [Event.isStorage])
      · intro gid arg hmem
        simp at hmem
      · intro ev hmem hte
        simp only [List.mem_cons, List.not_mem_nil, or_false] at hmem
        subst hmem
        exact absurd hte (by simp [Event.isTee])
    · intro kh r1 e r2 _ _
      refine ⟨?_, ?_, ?_, ?_⟩
      · intro k entry hmem
        simp at hmem
      · intro ev hmem hst
        simp only [List.mem_cons, List.not_mem_nil, or_false] at hmem
        rcases hmem with rfl | rfl <;> exact absurd hst (by simp [Event.isStorage])
      · intro gid arg hmem
        simp at hmem
      · intro ev hmem hte
        simp only [List.mem_cons, List.not_mem_nil, or_false] at hmem
        rcases hmem with rfl | rfl <;> exact absurd hte (by simp [Event.isTee])
    · intro kh r1 ct r2 e r3 _ _ _
      refine ⟨?_, ?_, ?_, ?_⟩
      · intro k entry hmem
        simp at hmem
      · intro ev hmem hst
        simp only [List.mem_cons, List.not_mem_nil, or_false] at hmem
        rcases hmem with rfl | rfl | rfl <;> exact absurd hst (by simp [Event.isStorage])
      · intro gid arg hmem
        simp at hmem
      · intro ev hmem hte
        simp only [List.mem_cons, List.not_mem_nil, or_false] at hmem
        rcases hmem with rfl | rfl | rfl <;> exact absurd hte (by simp [Event.isTee])
    · intro kh r1 ct r2 ek r3 e t1 hgen henc hexp hwrap
      refine ⟨?_, ?_, ?_, ?_⟩
      · intro k entry hmem
        simp at hmem
      · intro ev hmem hst
        simp only [List.mem_cons, List.not_mem_nil, or_false] at hmem
        rcases hmem with rfl | rfl | rfl | rfl <;>
          exact absurd hst (by simp [Event.isStorage])
      · intro gid arg hmem
        simp only [List.mem_cons, List.not_mem_nil, or_false] at hmem
        rcases hmem with h | h | h | h
        · exact absurd h (by simp)
        · exact absurd h (by simp)
        · exact absurd h (by simp)
        · obtain ⟨hg, ha⟩ := Event.teeWrapKey.inj h
          subst hg
          subst ha
          exact ⟨rfl, kh, r1, r2, r3, hgen, hexp⟩
      · intro ev hmem hte
        simp only [List.mem_cons, List.not_mem_nil, or_false] at hmem
        rcases hmem with rfl | rfl | rfl | rfl
        · exact absurd hte (by simp [Event.isTee])
        · exact absurd hte (by simp [Event.isTee])
        · exact absurd hte (by simp [Event.isTee])
        · exact ⟨_, _, rfl⟩
    · intro kh r1 ct r2 ek r3 w t1 hgen henc hexp hwrap
      refine ⟨?_, ?_, ?_, ?_⟩
      · intro k entry hmem
        simp only [List.mem_cons, List.not_mem_nil, or_false] at hmem
        rcases hmem with h | h | h | h | h
        · exact absurd h (by simp)
        · exact absurd h (by simp)
        · exact absurd h (by simp)
        · exact absurd h (by simp)
        · obtain ⟨hk, hentry⟩ := Event.storageSet.inj h
          subst hk
          subst hentry
          exact ⟨rfl, rfl, rfl, kh, r1, r2, ek, r3, w, t1, hgen, henc, hexp, hwrap, rfl, rfl⟩
      · intro ev hmem hst
        simp only [List.mem_cons, List.not_mem_nil, or_false] at hmem
        rcases hmem with rfl | rfl | rfl | rfl | rfl
        · exact absurd hst (by simp [Event.isStorage])
        · exact absurd hst (by simp [Event.isStorage])
        · exact absurd hst (by simp [Event.isStorage])
        · exact absurd hst (by simp [Event.isStorage])
        · exact ⟨_, _, rfl⟩
      · intro gid arg hmem
        simp only [List.mem_cons, List.not_mem_nil, or_false] at hmem
        rcases hmem with h | h | h | h | h
        · exact absurd h (by simp)
        · exact absurd h (by simp)
        · exact absurd h (by simp)
        · obtain ⟨hg, ha⟩ := Event.teeWrapKey.inj h
          subst hg
          subst ha
          exact ⟨rfl, kh, r1, r2, r3, hgen, hexp⟩
        · exact absurd h (by simp)
      · intro ev hmem hte
        simp only [List.mem_cons, List.not_mem_nil, or_false] at hmem
        rcases hmem with rfl | rfl | rfl | rfl | rfl
        · exact absurd hte (by simp [Event.isTee])
        · exact absurd hte (by simp [Event.isTee])
        · exact absurd hte (by simp [Event.isTee])
        · exact ⟨_, _, rfl⟩
        · exact absurd hte (by simp [Event.isTee])
  · rcases hsg : A.storage.get (getFullKey cfg key) s.st with ⟨rg, u1⟩
    cases rg with
    | error e =>
      have heq := (get_step_eqs cfg A key s).1 e u1 hsg
      refine ⟨?_, ?_, ?_⟩
      · intro ev hmem _
        rw [heq] at hmem
        simpa using hmem
      · intro gid warg hmem
        rw [heq] at hmem
        simp at hmem
      · intro ev hmem hte
        rw [heq] at hmem
        simp only [StepOut.trace, List.mem_cons, List.not_mem_nil, or_false] at hmem
        subst hmem
        exact absurd hte (by simp [Event.isTee])
    | ok oentry =>
      cases oentry with
      | none =>
        have heq := (get_step_eqs cfg A key s).2.1 u1 hsg
        refine ⟨?_, ?_, ?_⟩
        · intro ev hmem _
          rw [heq] at hmem
          simpa using hmem
        · intro gid warg hmem
          rw [heq] at hmem
          simp at hmem
        · intro ev hmem hte
          rw [heq] at hmem
          simp only [StepOut.trace, List.mem_cons, List.not_mem_nil, or_false] at hmem
          subst hmem
          exact absurd hte (by simp [Event.isTee])
      | some entry =>
        rcases hun : A.tee.unwrapKey (getGroupId cfg) entry.wrapped_key s.te with ⟨ru, t1⟩
        cases ru with
        | error e =>
          have heq := (get_step_eqs cfg A key s).2.2.1 entry u1 e t1 hsg hun
          refine ⟨?_, ?_, ?_⟩
          · intro ev hmem hst
            rw [heq] at hmem
            simp only [StepOut.trace, List.mem_cons, List.not_mem_nil, or_false] at hmem
            rcases hmem with rfl | rfl
            · rfl
            · exact absurd hst (by simp [Event.isStorage])
          · intro gid warg hmem
            rw [heq] at hmem
            simp only [StepOut.trace, List.mem_cons, List.not_mem_nil, or_false] at hmem
            rcases hmem with h | h
            · exact absurd h (by simp)
            · obtain ⟨hg, hw⟩ := Event.teeUnwrapKey.inj h
              subst hg
              subst hw
              exact ⟨rfl, entry, u1, rfl, rfl⟩
          · intro ev hmem hte
            rw [heq] at hmem
            simp only [StepOut.trace, List.mem_cons, List.not_mem_nil, or_false] at hmem
            rcases hmem with rfl | rfl
            · exact absurd hte (by simp [Event.isTee])
            · exact ⟨_, _, rfl⟩
        | ok uw =>
          obtain ⟨htr, hdrop⟩ := (get_step_eqs cfg A key s).2.2.2 entry u1 uw t1 hsg hun
          refine ⟨?_, ?_, ?_⟩
          · intro ev hmem hst
            rw [htr] at hmem
            simp only [List.mem_cons] at hmem
            rcases hmem with rfl | rfl | hmem
            · rfl
            · exact absurd hst (by simp [Event.isStorage])
            · rw [event_crypto_not_storage ev (hdrop ev hmem)] at hst
              cases hst
          · intro gid warg hmem
            rw [htr] at hmem
            simp only [List.mem_cons] at hmem
            rcases hmem with h | h | hmem
            · exact absurd h (by simp)
            · obtain ⟨hg, hw⟩ := Event.teeUnwrapKey.inj h
              subst hg
              subst hw
              exact ⟨rfl, entry, u1, rfl, rfl⟩
            · have := event_crypto_not_tee _ (hdrop _ hmem)
              simp [Event.isTee] at this
          · intro ev hmem hte
            rw [htr] at hmem
            simp only [List.mem_cons] at hmem
            rcases hmem with rfl | rfl | hmem
            · exact absurd hte (by simp [Event.isTee])
            · exact ⟨_, _, rfl⟩
            · rw [event_crypto_not_tee ev (hdrop ev hmem)] at hte
              cases hte

set_option maxRecDepth 8000 in
/-- Witness for C2 at a concrete input: the single storage call of a
concrete `set` run carries the assembled entry with the fixed algorithm tag
and version. -/
theorem plaintext_and_keys_isolated_witness :
    entryW.algorithm = "AES-256-GCM" ∧ entryW.v = 1 :=
  have h := (plaintext_and_keys_isolated cfg₀ (mockAdapters modelCrypto) "k" "v"
      (sys₀ modelCrypto 0)).1.1 (getFullKey cfg₀ "k") entryW (by decide)
  ⟨h.2.1, h.2.2.1⟩

/-- C9: every entry `set` hands to the storage adapter (with the Node crypto
model) has `algorithm = "AES-256-GCM"` and `v = 1`, and its ciphertext
base64-decodes to exactly `12 + |UTF-8 bytes of p| + 16` bytes — hence at
least 28 bytes. -/
theorem entry_format_spec (cfg : PrivateKVConfig) (key p : String)
    (s : SysState Nat MockTEEState MemoryStore) :
    ∀ k entry,
      Event.storageSet k entry ∈ (PrivateKV.set cfg (mockAdapters nodeCrypto) key p s).trace →
      entry.algorithm = "AES-256-GCM" ∧ entry.v = 1 ∧
      ∃ bytes, b64DecodeBytes entry.ciphertext = some bytes ∧
        bytes.length = 12 + (utf8Bytes p).length + 16 ∧ 28 ≤ bytes.length := by
  intro k entry hmem
  unfold PrivateKV.set at hmem
  simp only [mockAdapters, MockTEEAdapter, nodeCrypto, nodeEncrypt] at hmem
  rcases hwrap : mockWrapKey (getGroupId cfg) (b64EncodeBytes (randBytes 32 s.cr)) s.te
    with ⟨rw', t1⟩
  rw [hwrap] at hmem
  cases rw' with
  | error e => simp at hmem
  | ok w =>
    simp only [List.mem_cons, List.not_mem_nil, or_false] at hmem
    rcases hmem with h | h | h | h | h
    · exact absurd h (by simp)
    · exact absurd h (by simp)
    · exact absurd h (by simp)
    · exact absurd h (by simp)
    · obtain ⟨hk, hentry⟩ := Event.storageSet.inj h
      subst hentry
      refine ⟨rfl, rfl, ?_⟩
      refine ⟨randBytes 12 (s.cr + 1)
          ++ gcmEncryptBytes (randBytes 32 s.cr) (randBytes 12 (s.cr + 1)) (utf8Bytes p)
          ++ gcmTag (randBytes 32 s.cr) (randBytes 12 (s.cr + 1))
              (gcmEncryptBytes (randBytes 32 s.cr) (randBytes 12 (s.cr + 1)) (utf8Bytes p)),
        ?_, ?_, ?_⟩
      · apply b64DecodeBytes_b64EncodeBytes
        intro b hb
        simp only [List.append_assoc, List.mem_append] at hb
        rcases hb with hb | hb | hb
        · exact randBytes_lt _ _ b hb
        · exact gcmEncryptBytes_lt _ _ _ b hb
        · exact gcmTag_lt _ _ _ b hb
      · simp [List.length_append, randBytes_length, gcmEncryptBytes_length, gcmTag_length]
        omega
      · simp only [List.length_append, randBytes_length, gcmEncryptBytes_length,
          gcmTag_length]
        omega

set_option maxRecDepth 8000 in
/-- Witness for C9 at a concrete input: the entry stored by
`set("password", "hello world")` under the Node crypto model. -/
theorem entry_format_spec_witness :
    entryN.algorithm = "AES-256-GCM" ∧ entryN.v = 1 ∧
      ∃ bytes, b64DecodeBytes entryN.ciphertext = some bytes ∧
        bytes.length = 12 + (utf8Bytes "hello world").length + 16 ∧ 28 ≤ bytes.length :=
  entry_format_spec cfg₀ "password" "hello world" (sys₀ nodeCrypto 0)
    (getFullKey cfg₀ "password") entryN (by decide)

theorem plainStr_append {a b : String} (ha : plainStr a = true) (hb : plainStr b = true) :
    plainStr (a ++ b) = true := by
  simp only [plainStr, String.data_append, List.all_append, Bool.and_eq_true]
  exact ⟨ha, hb⟩

theorem getFullKey_data (cfg : PrivateKVConfig) (key : String) :
    (getFullKey cfg key).data = (cfg.nsp ++ "/" ++ cfg.accountId ++ "/").data ++ key.data := by
  simp [getFullKey, String.data_append, List.append_assoc]

set_option maxRecDepth 4000 in
/-- Counterexample to C5 as stated: the namespace/account prefix is spliced
into a regular expression verbatim, so for the configuration with
`accountId = "a*b"` the anchored pattern `^privatekv/a*b/` does not match
the stored key `privatekv/a*b/foo` (the `*` quantifies the `a`), the prefix
is not stripped, and `list` returns a key that still carries the internal
namespace/account prefix. -/
theorem list_strip_counterexample :
    (PrivateKV.list ⟨"a*b", "privatekv", "private"⟩ (mockAdapters modelCrypto) ""
        ⟨0, ⟨[], 0⟩, [("privatekv/a*b/foo", ⟨"w", "c", "k", "AES-256-GCM", 1⟩)], []⟩).res
      = .ok ["privatekv/a*b/foo"] ∧ "privatekv/a*b/foo" ≠ "foo" := by
  decide

/-- C5 (amended): for every configuration whose namespace and accountId are
free of regex metacharacters, every key returned by `list(prefix)` is the
user-supplied fragment of a stored key in the caller's own
namespace/account: prepending `namespace/accountId/` to it gives back
exactly a key present in storage. -/
theorem list_namespace_isolation {K R T : Type} (cfg : PrivateKVConfig)
    (hns : plainStr cfg.nsp = true) (hacc : plainStr cfg.accountId = true)
    (C : CryptoAdapterM K R) (tee : TEEAdapterM T) (pfx : String)
    (s : SysState R T MemoryStore) (out : List String)
    (hres : (PrivateKV.list cfg ⟨C, tee, MemoryStorageAdapter⟩ pfx s).res = .ok out) :
    ∀ k' ∈ out, ∃ entry, (getFullKey cfg k', entry) ∈ s.st := by
  have hp : plainStr (cfg.nsp ++ "/" ++ cfg.accountId ++ "/") = true :=
    plainStr_append (plainStr_append (plainStr_append hns (by decide)) hacc) (by decide)
  unfold PrivateKV.list MemoryStorageAdapter at hres
  simp only [Except.ok.injEq] at hres
  subst hres
  intro k' hk'
  obtain ⟨korig, hmem, rfl⟩ := List.mem_map.mp hk'
  rw [mem_sortStrings] at hmem
  obtain ⟨hmem, hsw⟩ := List.mem_filter.mp hmem
  obtain ⟨⟨ko, entry⟩, hpair, rfl⟩ := List.mem_map.mp hmem
  have hpref : List.IsPrefix (getFullKey cfg pfx).data (ko, entry).1.data := by
    apply List.isPrefixOf_iff_prefix.mp
    simpa [strStartsWith] using hsw
  obtain ⟨t, ht⟩ := hpref
  rw [getFullKey_data] at ht
  have hko : (ko, entry).1
      = List.asString ((cfg.nsp ++ "/" ++ cfg.accountId ++ "/").data ++ (pfx.data ++ t)) := by
    apply str_ext
    rw [asString_data, ← List.append_assoc]
    exact ht.symm
  rw [hko, jsReplaceAnchored_strip _ hp]
  refine ⟨entry, ?_⟩
  have hfk : getFullKey cfg (List.asString (pfx.data ++ t)) = (ko, entry).1 := by
    apply str_ext
    rw [getFullKey_data, asString_data, hko, asString_data]
  rw [hfk]
  exact hpair

set_option maxRecDepth 4000 in
/-- Witness for the amended C5 at a concrete input: with a metacharacter-free
configuration, `list` returns `"foo"` for the stored key
`privatekv/alice/foo`, and prepending the namespace/account prefix to the
returned fragment recovers the stored key. -/
theorem list_namespace_isolation_witness :
    ∃ entry, (getFullKey cfg₀ "foo", entry)
        ∈ ([("privatekv/alice/foo", (⟨"w", "c", "k", "AES-256-GCM", 1⟩ : EncryptedEntry))]
            : MemoryStore) :=
  list_namespace_isolation cfg₀ (by decide) (by decide) modelCrypto MockTEEAdapter ""
    ⟨0, ⟨[], 0⟩, [("privatekv/alice/foo", ⟨"w", "c", "k", "AES-256-GCM", 1⟩)], []⟩
    ["foo"] (by decide) "foo" (by decide)
